import Mathlib

/-!
# gowin32: registry accessor and console wrappers

A shallow embedding of `registry.go` (package `gowin32`) and `wrappers/wincon.go`.

* Go strings are lists of bytes (`List Nat`, every element below 256); UTF-16
  buffers are lists of 16-bit units.
* A Go function that can panic returns an `Outcome`.
* The native registry API is a parameter (`Native σ`): every native call takes the
  machine state and returns its results together with the new state.  `traced`
  turns any native layer into one that also records the calls made.
* `registryModel` is one concrete native layer, a finite-map registry.
-/

set_option autoImplicit false

namespace Gowin32

/-! ## Go text conversions used by the registry accessor -/

/-- The Unicode replacement character, Go `utf8.RuneError` / `utf16.replacementChar`. -/
def runeError : Nat := 0xFFFD

/-- Continuation byte test of the Go runtime decoder: `locb <= b && b <= hicb`. -/
def isCont (b : Nat) : Bool := 0x80 ≤ b && b ≤ 0xBF

/-- Go runtime `decoderune` at the head of a string whose first byte is not ASCII:
the decoded rune and the number of bytes consumed.  Malformed, overlong, surrogate
and out-of-range sequences give `(runeError, 1)`. -/
def decoderune : List Nat → Nat × Nat
  | [] => (runeError, 1)
  | b0 :: tl =>
    if 0xC0 ≤ b0 ∧ b0 < 0xE0 then
      match tl with
      | b1 :: _ =>
        if isCont b1 ∧ 0x7F < (b0 % 32) * 64 + b1 % 64 then ((b0 % 32) * 64 + b1 % 64, 2)
        else (runeError, 1)
      | _ => (runeError, 1)
    else if 0xE0 ≤ b0 ∧ b0 < 0xF0 then
      match tl with
      | b1 :: b2 :: _ =>
        let r := (b0 % 16) * 4096 + (b1 % 64) * 64 + b2 % 64
        if isCont b1 ∧ isCont b2 ∧ 0x7FF < r ∧ ¬ (0xD800 ≤ r ∧ r ≤ 0xDFFF) then (r, 3)
        else (runeError, 1)
      | _ => (runeError, 1)
    else if 0xF0 ≤ b0 ∧ b0 < 0xF8 then
      match tl with
      | b1 :: b2 :: b3 :: _ =>
        let r := (b0 % 8) * 262144 + (b1 % 64) * 4096 + (b2 % 64) * 64 + b3 % 64
        if isCont b1 ∧ isCont b2 ∧ isCont b3 ∧ 0xFFFF < r ∧ r ≤ 0x10FFFF then (r, 4)
        else (runeError, 1)
      | _ => (runeError, 1)
    else (runeError, 1)

/-- The loop of the Go conversion `[]rune(s)`: ASCII bytes are runes, anything else goes
through `decoderune`.  The first argument bounds the number of iterations. -/
def stringToRunesAux : Nat → List Nat → List Nat
  | 0, _ => []
  | _, [] => []
  | fuel + 1, b :: tl =>
    if b < 0x80 then b :: stringToRunesAux fuel tl
    else (decoderune (b :: tl)).1 :: stringToRunesAux fuel ((b :: tl).drop (decoderune (b :: tl)).2)

/-- Go `[]rune(s)`.  Every iteration consumes at least one byte, so `s.length`
iterations always reach the end of the string. -/
def stringToRunes (s : List Nat) : List Nat := stringToRunesAux s.length s

/-- Go runtime `encoderune`: the UTF-8 bytes of one rune; surrogates and values above
`0x10FFFF` are written as the replacement character. -/
def encoderune (r : Nat) : List Nat :=
  if r ≤ 0x7F then [r]
  else if r ≤ 0x7FF then [0xC0 + r / 64, 0x80 + r % 64]
  else if 0x10FFFF < r ∨ (0xD800 ≤ r ∧ r ≤ 0xDFFF) then [0xEF, 0xBF, 0xBD]
  else if r ≤ 0xFFFF then [0xE0 + r / 4096, 0x80 + r / 64 % 64, 0x80 + r % 64]
  else [0xF0 + r / 262144, 0x80 + r / 4096 % 64, 0x80 + r / 64 % 64, 0x80 + r % 64]

/-- Go `string(runes)`. -/
def runesToString : List Nat → List Nat
  | [] => []
  | r :: rs => encoderune r ++ runesToString rs

/-- Go `utf16.Encode`: runes outside the basic plane become a surrogate pair,
surrogate code points and values above `0x10FFFF` become the replacement character. -/
def utf16Encode : List Nat → List Nat
  | [] => []
  | v :: vs =>
    if v < 0xD800 ∨ (0xE000 ≤ v ∧ v < 0x10000) then v :: utf16Encode vs
    else if 0x10000 ≤ v ∧ v ≤ 0x10FFFF then
      (0xD800 + (v - 0x10000) / 1024 % 1024) :: (0xDC00 + (v - 0x10000) % 1024) :: utf16Encode vs
    else runeError :: utf16Encode vs

/-- Go `utf16.Decode`: a high surrogate followed by a low surrogate is one rune, a lone
surrogate is the replacement character. -/
def utf16Decode : List Nat → List Nat
  | [] => []
  | [r] => if r < 0xD800 ∨ 0xE000 ≤ r then [r] else [runeError]
  | r :: r2 :: tl =>
    if r < 0xD800 ∨ 0xE000 ≤ r then r :: utf16Decode (r2 :: tl)
    else if r < 0xDC00 ∧ 0xDC00 ≤ r2 ∧ r2 < 0xE000 then
      ((r - 0xD800) * 1024 + (r2 - 0xDC00) + 0x10000) :: utf16Decode tl
    else runeError :: utf16Decode (r2 :: tl)

/-- A Unicode scalar value: a code point up to `0x10FFFF` that is not a surrogate. -/
def validRune (r : Nat) : Prop := r < 0xD800 ∨ (0xE000 ≤ r ∧ r ≤ 0x10FFFF)

/-- Go `syscall.UTF16FromString`: `none` (the Go error `EINVAL`) when the string has a
NUL byte, otherwise the UTF-16 encoding of `s + "\x00"`. -/
def UTF16FromString (s : List Nat) : Option (List Nat) :=
  if 0 ∈ s then none else some (utf16Encode (stringToRunes (s ++ [0])))

/-- Go `syscall.StringToUTF16Ptr`: a pointer to the NUL-terminated UTF-16 buffer, given
here as the buffer it points to; `none` stands for the panic
`syscall: string with NUL passed to StringToUTF16`. -/
def StringToUTF16Ptr (s : List Nat) : Option (List Nat) := UTF16FromString s

/-- Go `syscall.UTF16ToString`: the units before the first NUL, decoded and written as
UTF-8. -/
def UTF16ToString (s : List Nat) : List Nat :=
  runesToString (utf16Decode (s.takeWhile (fun v => v ≠ 0)))

/-- The bytes of a UTF-16 buffer in memory (little-endian, as on every Windows target). -/
def utf16Bytes : List Nat → List Nat
  | [] => []
  | u :: us => (u % 256) :: (u / 256 % 256) :: utf16Bytes us

/-- The 16-bit units read from a byte buffer of even length. -/
def bytesToUTF16 : List Nat → List Nat
  | b0 :: b1 :: tl => (b0 + 256 * b1) :: bytesToUTF16 tl
  | _ => []

/-- The four bytes of a `uint32` variable in memory. -/
def uint32Bytes (v : Nat) : List Nat :=
  [v % 256, v / 256 % 256, v / 65536 % 256, v / 16777216 % 256]

/-- The `uint32` held by the first four bytes of a buffer. -/
def bytesToUint32 (b : List Nat) : Nat :=
  b.getD 0 0 + 256 * b.getD 1 0 + 65536 * b.getD 2 0 + 16777216 * b.getD 3 0

/-- What a buffer holds after a native call wrote `written` at its start: the bytes
that fit replace the old ones; bytes written past the end land outside the buffer. -/
def storeBytes (buf written : List Nat) : List Nat :=
  written.take buf.length ++ buf.drop written.length

/-! ## Errors, constants and the native layer -/

/-- Modelled from the spec: the native status meaning success (`wrappers.ERROR_SUCCESS`,
declared in a file of the wrappers package that is not at hand); the platform value. -/
def ERROR_SUCCESS : Nat := 0

/-- Modelled from the spec: the "unsupported type" error code (`wrappers.ERROR_UNSUPPORTED_TYPE`,
declared in a file of the wrappers package that is not at hand); the platform value. -/
def ERROR_UNSUPPORTED_TYPE : Nat := 1630

/-- Modelled from the spec: the type tag of a null-terminated wide-character string value
(`wrappers.REG_SZ`, declared in a file of the wrappers package that is not at hand). -/
def REG_SZ : Nat := 1

/-- Modelled from the spec: the type tag of a fixed-size integer value
(`wrappers.REG_DWORD`, declared in a file of the wrappers package that is not at hand). -/
def REG_DWORD : Nat := 4

/-- Modelled from the spec: the read access mask (`wrappers.KEY_READ`, declared in a file
of the wrappers package that is not at hand); it includes the query-value right, bit 0. -/
def KEY_READ : Nat := 0x20019

/-- Modelled from the spec: the write access mask (`wrappers.KEY_WRITE`, declared in a file
of the wrappers package that is not at hand); it includes the set-value right, bit 1. -/
def KEY_WRITE : Nat := 0x20006

/-- Go `syscall.EINVAL` on Windows, an invented code in the application range:
`APPLICATION_ERROR + 39`. -/
def EINVAL : Nat := 536870912 + 39

/-- A Go `error` value as the two facilities produce it: a bare `syscall.Errno`, or the
structured error built by `NewWindowsError`. -/
inductive GoError where
  | errno (code : Nat)
  | windowsError (functionName : String) (innerError : Nat)
  deriving DecidableEq, Repr

/-- Modelled from the spec: `NewWindowsError` (declared in a file of the package that is
not at hand) wraps a native failure into a structured error carrying the failing
operation's name and the platform's native error code. -/
def NewWindowsError (functionName : String) (innerError : Nat) : GoError :=
  GoError.windowsError functionName innerError

/-- The two run-time panics the registry accessor can raise. -/
inductive Panic where
  | nulInString
  | indexOutOfRange
  deriving DecidableEq, Repr

/-- How a Go function call ends: it returns a value or it panics. -/
inductive Outcome (α : Type) where
  | ret (v : α)
  | panic (p : Panic)
  deriving DecidableEq, Repr

/-- What `RegQueryValueEx` hands back: the error of the wrapper (`none` is Go `nil`), the
type stored through `lpType`, the bytes written at `lpData`, and the size stored through
`lpcbData`. -/
structure QueryResult where
  err : Option Nat
  valueType : Nat
  written : List Nat
  size : Nat
  deriving DecidableEq, Repr

/-- The registry functions of the wrappers package (thin bindings of the platform API,
declared in a file that is not at hand), taken as a parameter.  `σ` is the state of the
machine.  An error is `none` for Go `nil` and `some code` for `syscall.Errno(code)`.
A `*uint16` argument is given as the NUL-terminated buffer it points to; a data pointer
passed to `RegSetValueEx` is given as the bytes of the object it points to; the data
pointer passed to `RegQueryValueEx` is `none` for `nil` and `some n` for a pointer to an
object of `n` bytes.  Arguments that every call site passes as `nil` or as a constant zero
(the reserved words, the class, the security attributes, the disposition) are left out. -/
structure Native (σ : Type) where
  RegOpenKeyEx : (hKey : Nat) → (subKey : List Nat) → (options samDesired : Nat) →
    σ → (Option Nat × Nat) × σ
  RegCreateKeyEx : (hKey : Nat) → (subKey : List Nat) → (options samDesired : Nat) →
    σ → (Option Nat × Nat) × σ
  RegQueryValueEx : (hKey : Nat) → (valueName : List Nat) → (wantType : Bool) →
    (data : Option Nat) → (cbData : Nat) → σ → QueryResult × σ
  RegSetValueEx : (hKey : Nat) → (valueName : List Nat) → (valueType : Nat) →
    (data : List Nat) → (cbData : Nat) → σ → Option Nat × σ
  RegDeleteValue : (hKey : Nat) → (valueName : List Nat) → σ → Option Nat × σ
  RegCloseKey : (hKey : Nat) → σ → Option Nat × σ

/-- Go `defer RegCloseKey(hKey)`: the body runs, then the key is closed whether the body
returned or panicked, and the result of the close is dropped. -/
def deferClose {σ α : Type} (N : Native σ) (hKey : Nat) (body : σ → Outcome α × σ)
    (st : σ) : Outcome α × σ :=
  ((body st).1, (N.RegCloseKey hKey (body st).2).2)

/-- Evaluation of an argument `syscall.StringToUTF16Ptr(s)`: the call panics on a NUL
byte, otherwise the rest of the function runs with the pointer. -/
def withUTF16Ptr {σ α : Type} (s : List Nat) (k : List Nat → σ → Outcome α × σ)
    (st : σ) : Outcome α × σ :=
  match StringToUTF16Ptr s with
  | none => (Outcome.panic Panic.nulInString, st)
  | some p => k p st

/-! ## The registry accessor (`registry.go`) -/

/-- The function `DeleteRegValue` of `registry.go`. -/
def DeleteRegValue {σ : Type} (N : Native σ) (root : Nat) (subKey valueName : List Nat) :
    σ → Outcome (Option GoError) × σ :=
  withUTF16Ptr subKey fun pSubKey st =>
    let o := N.RegOpenKeyEx root pSubKey 0 KEY_WRITE st
    match o.1.1 with
    | some err => (Outcome.ret (some (NewWindowsError "RegOpenKeyEx" err)), o.2)
    | none =>
      deferClose N o.1.2 (withUTF16Ptr valueName fun pName st1 =>
        let d := N.RegDeleteValue o.1.2 pName st1
        match d.1 with
        | some err => (Outcome.ret (some (NewWindowsError "RegDeleteValue" err)), d.2)
        | none => (Outcome.ret none, d.2)) o.2

/-- The function `GetRegValueDWORD` of `registry.go`.  The output buffer of the second
query is the four-byte variable `value`, zero before the call.  The deferred close is
written `syscall.RegCloseKey` here, the same native call as the wrappers' one. -/
def GetRegValueDWORD {σ : Type} (N : Native σ) (root : Nat) (subKey valueName : List Nat) :
    σ → Outcome (Nat × Option GoError) × σ :=
  withUTF16Ptr subKey fun pSubKey st =>
    let o := N.RegOpenKeyEx root pSubKey 0 KEY_READ st
    match o.1.1 with
    | some err => (Outcome.ret (0, some (NewWindowsError "RegOpenKeyEx" err)), o.2)
    | none =>
      deferClose N o.1.2 (withUTF16Ptr valueName fun pName st1 =>
        let q := N.RegQueryValueEx o.1.2 pName true none 0 st1
        match q.1.err with
        | some err => (Outcome.ret (0, some (NewWindowsError "RegQueryValueEx" err)), q.2)
        | none =>
          if q.1.valueType ≠ REG_DWORD then
            (Outcome.ret (0, some (GoError.errno ERROR_UNSUPPORTED_TYPE)), q.2)
          else
            withUTF16Ptr valueName (fun pName2 st2 =>
              let r := N.RegQueryValueEx o.1.2 pName2 false (some 4) q.1.size st2
              match r.1.err with
              | some err =>
                (Outcome.ret (0, some (NewWindowsError "RegQueryValueEx" err)), r.2)
              | none =>
                (Outcome.ret (bytesToUint32 (storeBytes (uint32Bytes 0) r.1.written), none),
                  r.2)) q.2) o.2

/-- The function `GetRegValueString` of `registry.go`.  `buf` has `size/2` zeroed 16-bit elements;
taking the address of `buf[0]` panics when it has none. -/
def GetRegValueString {σ : Type} (N : Native σ) (root : Nat) (subKey valueName : List Nat) :
    σ → Outcome (List Nat × Option GoError) × σ :=
  withUTF16Ptr subKey fun pSubKey st =>
    let o := N.RegOpenKeyEx root pSubKey 0 KEY_READ st
    match o.1.1 with
    | some err => (Outcome.ret ([], some (NewWindowsError "RegOpenKeyEx" err)), o.2)
    | none =>
      deferClose N o.1.2 (withUTF16Ptr valueName fun pName st1 =>
        let q := N.RegQueryValueEx o.1.2 pName true none 0 st1
        match q.1.err with
        | some err => (Outcome.ret ([], some (NewWindowsError "RegQueryValueEx" err)), q.2)
        | none =>
          if q.1.valueType ≠ REG_SZ then
            (Outcome.ret ([], some (GoError.errno ERROR_UNSUPPORTED_TYPE)), q.2)
          else
            withUTF16Ptr valueName (fun pName2 st2 =>
              if q.1.size / 2 = 0 then (Outcome.panic Panic.indexOutOfRange, st2)
              else
                let r := N.RegQueryValueEx o.1.2 pName2 false (some (2 * (q.1.size / 2)))
                  q.1.size st2
                match r.1.err with
                | some err =>
                  (Outcome.ret ([], some (NewWindowsError "RegQueryValueEx" err)), r.2)
                | none =>
                  (Outcome.ret (UTF16ToString (bytesToUTF16
                    (storeBytes (List.replicate (2 * (q.1.size / 2)) 0) r.1.written)), none),
                    r.2)) q.2) o.2

/-- The function `SetRegValueDWORD` of `registry.go`: the data pointer is the address of the four-byte
argument, the size is `unsafe.Sizeof(data)`. -/
def SetRegValueDWORD {σ : Type} (N : Native σ) (root : Nat) (subKey valueName : List Nat)
    (data : Nat) : σ → Outcome (Option GoError) × σ :=
  withUTF16Ptr subKey fun pSubKey st =>
    let o := N.RegCreateKeyEx root pSubKey 0 KEY_WRITE st
    match o.1.1 with
    | some err => (Outcome.ret (some (NewWindowsError "RegCreateKeyEx" err)), o.2)
    | none =>
      deferClose N o.1.2 (withUTF16Ptr valueName fun pName st1 =>
        let w := N.RegSetValueEx o.1.2 pName REG_DWORD (uint32Bytes data) 4 st1
        match w.1 with
        | some err => (Outcome.ret (some (NewWindowsError "RegSetValueEx" err)), w.2)
        | none => (Outcome.ret none, w.2)) o.2

/-- The function `SetRegValueString` of `registry.go`: the data pointer is the UTF-16 buffer made by
`StringToUTF16Ptr(data)`, the size is `uint32(2*(len(data)+1))` with `len` the number of
bytes of the Go string. -/
def SetRegValueString {σ : Type} (N : Native σ) (root : Nat) (subKey valueName : List Nat)
    (data : List Nat) : σ → Outcome (Option GoError) × σ :=
  withUTF16Ptr subKey fun pSubKey st =>
    let o := N.RegCreateKeyEx root pSubKey 0 KEY_WRITE st
    match o.1.1 with
    | some err => (Outcome.ret (some (NewWindowsError "RegCreateKeyEx" err)), o.2)
    | none =>
      deferClose N o.1.2 (withUTF16Ptr valueName fun pName => withUTF16Ptr data fun pData st1 =>
        let w := N.RegSetValueEx o.1.2 pName REG_SZ (utf16Bytes pData)
          ((2 * (data.length + 1)) % 4294967296) st1
        match w.1 with
        | some err => (Outcome.ret (some (NewWindowsError "RegSetValueEx" err)), w.2)
        | none => (Outcome.ret none, w.2)) o.2

/-! ## The console wrappers (`wrappers/wincon.go`) -/

/-- The function `GenerateConsoleCtrlEvent` of `wrappers/wincon.go`.  `Syscall` is Go `syscall.Syscall`,
returning `(r1, r2, e1)`; `proc` is the address of the native procedure. -/
def GenerateConsoleCtrlEvent {σ : Type}
    (Syscall : (trap nargs a1 a2 a3 : Nat) → σ → (Nat × Nat × Nat) × σ)
    (proc ctrlEvent processGroupId : Nat) (st : σ) : Option GoError × σ :=
  let r := Syscall proc 2 ctrlEvent processGroupId 0 st
  if r.1.1 = 0 then
    if r.1.2.2 ≠ ERROR_SUCCESS then (some (GoError.errno r.1.2.2), r.2)
    else (some (GoError.errno EINVAL), r.2)
  else (none, r.2)

/-- The function `GetConsoleMode` of `wrappers/wincon.go`; `mode` is the address the native call
writes the mode to. -/
def GetConsoleMode {σ : Type}
    (Syscall : (trap nargs a1 a2 a3 : Nat) → σ → (Nat × Nat × Nat) × σ)
    (proc consoleHandle mode : Nat) (st : σ) : Option GoError × σ :=
  let r := Syscall proc 2 consoleHandle mode 0 st
  if r.1.1 = 0 then
    if r.1.2.2 ≠ ERROR_SUCCESS then (some (GoError.errno r.1.2.2), r.2)
    else (some (GoError.errno EINVAL), r.2)
  else (none, r.2)

/-- The function `SetConsoleMode` of `wrappers/wincon.go`. -/
def SetConsoleMode {σ : Type}
    (Syscall : (trap nargs a1 a2 a3 : Nat) → σ → (Nat × Nat × Nat) × σ)
    (proc consoleHandle mode : Nat) (st : σ) : Option GoError × σ :=
  let r := Syscall proc 2 consoleHandle mode 0 st
  if r.1.1 = 0 then
    if r.1.2.2 ≠ ERROR_SUCCESS then (some (GoError.errno r.1.2.2), r.2)
    else (some (GoError.errno EINVAL), r.2)
  else (none, r.2)

/-! ## Recording the native calls -/

/-- One native registry call with its arguments and what it returned. -/
inductive Event where
  | regOpenKeyEx (hKey : Nat) (subKey : List Nat) (options samDesired : Nat)
      (err : Option Nat) (result : Nat)
  | regCreateKeyEx (hKey : Nat) (subKey : List Nat) (options samDesired : Nat)
      (err : Option Nat) (result : Nat)
  | regQueryValueEx (hKey : Nat) (valueName : List Nat) (wantType : Bool)
      (data : Option Nat) (cbData : Nat) (res : QueryResult)
  | regSetValueEx (hKey : Nat) (valueName : List Nat) (valueType : Nat)
      (data : List Nat) (cbData : Nat) (err : Option Nat)
  | regDeleteValue (hKey : Nat) (valueName : List Nat) (err : Option Nat)
  | regCloseKey (hKey : Nat) (err : Option Nat)
  deriving DecidableEq, Repr

/-- The native layer `N` with a log: every call is passed on to `N` and then appended
to the log. -/
def traced {σ : Type} (N : Native σ) : Native (σ × List Event) where
  RegOpenKeyEx hKey subKey options samDesired st :=
    let r := N.RegOpenKeyEx hKey subKey options samDesired st.1
    (r.1, (r.2, st.2 ++ [Event.regOpenKeyEx hKey subKey options samDesired r.1.1 r.1.2]))
  RegCreateKeyEx hKey subKey options samDesired st :=
    let r := N.RegCreateKeyEx hKey subKey options samDesired st.1
    (r.1, (r.2, st.2 ++ [Event.regCreateKeyEx hKey subKey options samDesired r.1.1 r.1.2]))
  RegQueryValueEx hKey valueName wantType data cbData st :=
    let r := N.RegQueryValueEx hKey valueName wantType data cbData st.1
    (r.1, (r.2, st.2 ++ [Event.regQueryValueEx hKey valueName wantType data cbData r.1]))
  RegSetValueEx hKey valueName valueType data cbData st :=
    let r := N.RegSetValueEx hKey valueName valueType data cbData st.1
    (r.1, (r.2, st.2 ++ [Event.regSetValueEx hKey valueName valueType data cbData r.1]))
  RegDeleteValue hKey valueName st :=
    let r := N.RegDeleteValue hKey valueName st.1
    (r.1, (r.2, st.2 ++ [Event.regDeleteValue hKey valueName r.1]))
  RegCloseKey hKey st :=
    let r := N.RegCloseKey hKey st.1
    (r.1, (r.2, st.2 ++ [Event.regCloseKey hKey r.1]))

/-- The handles closed by the calls of a log, in order. -/
def closedHandles : List Event → List Nat
  | [] => []
  | Event.regCloseKey h _ :: evs => h :: closedHandles evs
  | _ :: evs => closedHandles evs

/-- The name of the native function of a call. -/
def Event.name : Event → String
  | Event.regOpenKeyEx _ _ _ _ _ _ => "RegOpenKeyEx"
  | Event.regCreateKeyEx _ _ _ _ _ _ => "RegCreateKeyEx"
  | Event.regQueryValueEx _ _ _ _ _ _ => "RegQueryValueEx"
  | Event.regSetValueEx _ _ _ _ _ _ => "RegSetValueEx"
  | Event.regDeleteValue _ _ _ => "RegDeleteValue"
  | Event.regCloseKey _ _ => "RegCloseKey"

/-- The error a call returned (`none` is Go `nil`). -/
def Event.err : Event → Option Nat
  | Event.regOpenKeyEx _ _ _ _ e _ => e
  | Event.regCreateKeyEx _ _ _ _ e _ => e
  | Event.regQueryValueEx _ _ _ _ _ res => res.err
  | Event.regSetValueEx _ _ _ _ _ e => e
  | Event.regDeleteValue _ _ e => e
  | Event.regCloseKey _ e => e

/-- A call is a handle close. -/
def Event.isClose : Event → Bool
  | Event.regCloseKey _ _ => true
  | _ => false

/-- The failure of any call, the handle close included: the name of the native function
and the code it returned. -/
def Event.anyFailure (ev : Event) : Option (String × Nat) :=
  ev.err.map fun e => (ev.name, e)

/-- The failure of a call other than the handle close (whose result the accessor drops). -/
def Event.failure (ev : Event) : Option (String × Nat) :=
  if ev.isClose then none else ev.anyFailure

/-- A successful type query (the first query of a read) reported a type other than
`want`. -/
def Event.mismatch (want : Nat) : Event → Bool
  | Event.regQueryValueEx _ _ wantType _ _ res =>
    wantType && res.err = none && res.valueType ≠ want
  | _ => false

/-! ## A registry model -/

/-- Modelled from the spec: the native not-found status the platform returns for an absent
key or value (platform value). -/
def ERROR_FILE_NOT_FOUND : Nat := 2

/-- Modelled from the spec: the native status for a handle that lacks the access right the
call needs (platform value). -/
def ERROR_ACCESS_DENIED : Nat := 5

/-- Modelled from the spec: the native status for a handle that is not an open key
(platform value). -/
def ERROR_INVALID_HANDLE : Nat := 6

/-- Modelled from the spec: the native status for an output buffer smaller than the
value's data (platform value). -/
def ERROR_MORE_DATA : Nat := 234

/-- A value record: a type tag and raw bytes. -/
structure RegValue where
  valueType : Nat
  data : List Nat
  deriving DecidableEq, Repr

/-- An open key handle: the key it designates and the access it was opened with. -/
structure OpenKey where
  root : Nat
  path : List Nat
  access : Nat
  deriving DecidableEq, Repr

/-- Modelled from the spec: the registry behind the native calls (the platform itself,
not part of the files at hand).  Keys are addressed by root handle and subkey path, each
key holds value records addressed by name, and open key handles are process-local
resources. -/
structure Registry where
  keys : Nat → List Nat → Option (List Nat → Option RegValue)
  handles : Nat → Option OpenKey
  next : Nat

/-- The wide string a native call reads through a `*uint16`: the units before the NUL. -/
def wideString (p : List Nat) : List Nat := p.takeWhile (fun v => v ≠ 0)

/-- The `n` bytes a native call reads from the address of an object: the bytes of the
object, and past its end whatever lies there in memory (`stray`). -/
def readMemory (stray : Nat → Nat) (obj : List Nat) (n : Nat) : List Nat :=
  obj.take n ++ (List.range (n - obj.length)).map (fun i => stray i % 256)

/-- The value record stored at an address, if any. -/
def Registry.lookup (reg : Registry) (root : Nat) (path name : List Nat) : Option RegValue :=
  match reg.keys root path with
  | none => none
  | some vals => vals name

/-- Replace the table of values of one key. -/
def Registry.setKey (reg : Registry) (root : Nat) (path : List Nat)
    (vals : Option (List Nat → Option RegValue)) : Registry :=
  { reg with keys := fun r p => if r = root ∧ p = path then vals else reg.keys r p }

/-- Hand out a fresh handle for a key. -/
def Registry.openKey (reg : Registry) (root : Nat) (path : List Nat) (access : Nat) :
    (Option Nat × Nat) × Registry :=
  ((none, reg.next),
    { reg with
      handles := fun h => if h = reg.next then some ⟨root, path, access⟩ else reg.handles h
      next := reg.next + 1 })

/-- Modelled from the spec: the native open-key call; it fails with the not-found code
when the key does not exist. -/
def modelRegOpenKeyEx (hKey : Nat) (subKey : List Nat) (_options samDesired : Nat)
    (reg : Registry) : (Option Nat × Nat) × Registry :=
  match reg.keys hKey (wideString subKey) with
  | none => ((some ERROR_FILE_NOT_FOUND, 0), reg)
  | some _ => reg.openKey hKey (wideString subKey) samDesired

/-- The registry in which a key exists: created empty if absent. -/
def Registry.ensureKey (reg : Registry) (root : Nat) (path : List Nat) : Registry :=
  match reg.keys root path with
  | none => reg.setKey root path (some fun _ => none)
  | some _ => reg

/-- Modelled from the spec: the native create-key call; it opens the key, creating it
empty if absent. -/
def modelRegCreateKeyEx (hKey : Nat) (subKey : List Nat) (_options samDesired : Nat)
    (reg : Registry) : (Option Nat × Nat) × Registry :=
  (reg.ensureKey hKey (wideString subKey)).openKey hKey (wideString subKey) samDesired

/-- Modelled from the spec: the native query-value call.  With no data pointer it reports
type and size; with one it copies the value's bytes when the given size suffices and
reports more-data otherwise.  The handle must be open with the query right (bit 0). -/
def modelRegQueryValueEx (hKey : Nat) (valueName : List Nat) (_wantType : Bool)
    (data : Option Nat) (cbData : Nat) (reg : Registry) : QueryResult × Registry :=
  match reg.handles hKey with
  | none => (⟨some ERROR_INVALID_HANDLE, 0, [], cbData⟩, reg)
  | some k =>
    if k.access % 2 = 0 then (⟨some ERROR_ACCESS_DENIED, 0, [], cbData⟩, reg)
    else
      match reg.lookup k.root k.path (wideString valueName) with
      | none => (⟨some ERROR_FILE_NOT_FOUND, 0, [], cbData⟩, reg)
      | some v =>
        match data with
        | none => (⟨none, v.valueType, [], v.data.length⟩, reg)
        | some _ =>
          if cbData < v.data.length then
            (⟨some ERROR_MORE_DATA, v.valueType, [], v.data.length⟩, reg)
          else (⟨none, v.valueType, v.data, v.data.length⟩, reg)

/-- Modelled from the spec: the native set-value call; it stores the type tag and the
`cbData` bytes found at the data pointer.  The handle must be open with the set right
(bit 1). -/
def modelRegSetValueEx (stray : Nat → Nat) (hKey : Nat) (valueName : List Nat)
    (valueType : Nat) (data : List Nat) (cbData : Nat) (reg : Registry) :
    Option Nat × Registry :=
  match reg.handles hKey with
  | none => (some ERROR_INVALID_HANDLE, reg)
  | some k =>
    if k.access / 2 % 2 = 0 then (some ERROR_ACCESS_DENIED, reg)
    else
      match reg.keys k.root k.path with
      | none => (some ERROR_FILE_NOT_FOUND, reg)
      | some vals =>
        (none, reg.setKey k.root k.path (some fun n =>
          if n = wideString valueName then some ⟨valueType, readMemory stray data cbData⟩
          else vals n))

/-- Modelled from the spec: the native delete-value call; it fails with the not-found
code when the value does not exist. -/
def modelRegDeleteValue (hKey : Nat) (valueName : List Nat) (reg : Registry) :
    Option Nat × Registry :=
  match reg.handles hKey with
  | none => (some ERROR_INVALID_HANDLE, reg)
  | some k =>
    if k.access / 2 % 2 = 0 then (some ERROR_ACCESS_DENIED, reg)
    else
      match reg.keys k.root k.path with
      | none => (some ERROR_FILE_NOT_FOUND, reg)
      | some vals =>
        match vals (wideString valueName) with
        | none => (some ERROR_FILE_NOT_FOUND, reg)
        | some _ =>
          (none, reg.setKey k.root k.path (some fun n =>
            if n = wideString valueName then none else vals n))

/-- Release a handle. -/
def Registry.closeHandle (reg : Registry) (hKey : Nat) : Registry :=
  { reg with handles := fun h => if h = hKey then none else reg.handles h }

/-- Modelled from the spec: the native close-key call; it releases an open handle. -/
def modelRegCloseKey (hKey : Nat) (reg : Registry) : Option Nat × Registry :=
  match reg.handles hKey with
  | none => (some ERROR_INVALID_HANDLE, reg)
  | some _ => (none, reg.closeHandle hKey)

/-- The registry model as a native layer.  `stray` gives the bytes a native read finds
past the end of the object it was pointed at. -/
def registryModel (stray : Nat → Nat) : Native Registry where
  RegOpenKeyEx := modelRegOpenKeyEx
  RegCreateKeyEx := modelRegCreateKeyEx
  RegQueryValueEx := modelRegQueryValueEx
  RegSetValueEx := modelRegSetValueEx stray
  RegDeleteValue := modelRegDeleteValue
  RegCloseKey := modelRegCloseKey

/-- A registry with no key and no open handle. -/
def emptyRegistry : Registry where
  keys := fun _ _ => none
  handles := fun _ => none
  next := 1

/-- A registry holding one value under the key `k` of root 1. -/
def oneValueRegistry (name : List Nat) (v : RegValue) : Registry where
  keys := fun r p => if r = 1 ∧ p = [0x6B] then some (fun n => if n = name then some v else none)
    else none
  handles := fun _ => none
  next := 1

/-! ## What the claims speak about -/

/-- The return convention of a console wrapper, given what the native call returned:
no error exactly when `r1` is non-zero; on a zero `r1` the native code `e1`, or `EINVAL`
when `e1` is `ERROR_SUCCESS`. -/
def ReturnConvention (r1 e1 : Nat) (result : Option GoError) : Prop :=
  (result = none ↔ r1 ≠ 0) ∧
  (r1 = 0 → e1 ≠ ERROR_SUCCESS → result = some (GoError.errno e1)) ∧
  (r1 = 0 → e1 = ERROR_SUCCESS → result = some (GoError.errno EINVAL))

/-- The handles the open and create calls of a log produced, in order. -/
def openedHandles : List Event → List Nat
  | [] => []
  | Event.regOpenKeyEx _ _ _ _ none h :: evs => h :: openedHandles evs
  | Event.regCreateKeyEx _ _ _ _ none h :: evs => h :: openedHandles evs
  | _ :: evs => openedHandles evs

/-- Handle discipline of one operation, read off the log of its native calls: the handles
closed are exactly the handles opened, at most one handle is opened, and when one is, its
close is the last native call of the operation. -/
def HandleReleased (log : List Event) : Prop :=
  closedHandles log = openedHandles log ∧
  (openedHandles log).length ≤ 1 ∧
  ∀ h ∈ openedHandles log, ∃ e, log.getLast? = some (Event.regCloseKey h e)

/-- The error an operation returned, if it returned one. -/
def returnedError : Outcome (Option GoError) → Option GoError
  | Outcome.ret e => e
  | Outcome.panic _ => none

/-- The error part of a read operation's result. -/
def readError {α : Type} : Outcome (α × Option GoError) → Option GoError
  | Outcome.ret r => r.2
  | Outcome.panic _ => none

/-- The native calls made after the first failing one. -/
def callsAfterFailure (failed : Event → Option (String × Nat)) : List Event → List Event
  | [] => []
  | ev :: evs => if (failed ev).isSome then evs else callsAfterFailure failed evs

/-- The error taxonomy of one operation, read off the log of its native calls and the
error it returned.  `failed` tells which calls count as failing, `want` is the type the
operation asks for.  The operation returns an error exactly when a call failed or the
type query reported another type; a returned error is the wrapped code and name of a
failing call, or the unsupported-type error after a mismatch; after the first failing
call only handle closes are made. -/
def ErrorTaxonomy (failed : Event → Option (String × Nat)) (want : Nat) (log : List Event)
    (err : Option GoError) : Prop :=
  (err ≠ none ↔ ((∃ ev ∈ log, failed ev ≠ none) ∨ ∃ ev ∈ log, ev.mismatch want = true)) ∧
  (∀ e, err = some e →
    (∃ ev ∈ log, ∃ name code, failed ev = some (name, code) ∧ e = NewWindowsError name code) ∨
    (e = GoError.errno ERROR_UNSUPPORTED_TYPE ∧ ∃ ev ∈ log, ev.mismatch want = true)) ∧
  (∀ x ∈ callsAfterFailure failed log, x.isClose = true)

/-- A native layer in which every call succeeds except the handle close. -/
def closeFailingLayer : Native Unit where
  RegOpenKeyEx _ _ _ _ st := ((none, 1), st)
  RegCreateKeyEx _ _ _ _ st := ((none, 1), st)
  RegQueryValueEx _ _ _ _ _ st := (⟨none, REG_DWORD, uint32Bytes 0, 4⟩, st)
  RegSetValueEx _ _ _ _ _ st := (none, st)
  RegDeleteValue _ _ st := (none, st)
  RegCloseKey _ st := (some ERROR_INVALID_HANDLE, st)

/-! ## Theorems -/

/-- C6: each of the three console wrappers returns no error exactly when the native
result `r1` is non-zero; when `r1` is zero it returns the native code `e1` if that is not
`ERROR_SUCCESS` and `EINVAL` otherwise. -/
theorem console_wrappers_return_convention {σ : Type}
    (Syscall : (trap nargs a1 a2 a3 : Nat) → σ → (Nat × Nat × Nat) × σ)
    (proc a1 a2 : Nat) (st : σ) :
    ReturnConvention (Syscall proc 2 a1 a2 0 st).1.1 (Syscall proc 2 a1 a2 0 st).1.2.2
      (GenerateConsoleCtrlEvent Syscall proc a1 a2 st).1 ∧
    ReturnConvention (Syscall proc 2 a1 a2 0 st).1.1 (Syscall proc 2 a1 a2 0 st).1.2.2
      (GetConsoleMode Syscall proc a1 a2 st).1 ∧
    ReturnConvention (Syscall proc 2 a1 a2 0 st).1.1 (Syscall proc 2 a1 a2 0 st).1.2.2
      (SetConsoleMode Syscall proc a1 a2 st).1 := by
  simp only [ReturnConvention, GenerateConsoleCtrlEvent, GetConsoleMode, SetConsoleMode]
  refine ⟨?_, ?_, ?_⟩ <;>
  · by_cases h1 : (Syscall proc 2 a1 a2 0 st).1.1 = 0 <;>
    by_cases h2 : (Syscall proc 2 a1 a2 0 st).1.2.2 = ERROR_SUCCESS <;>
    simp [h1, h2]

/-- C5: for each of the five registry operations and whatever the native calls return,
the handle produced by a successful open or create call is closed exactly once, as the
last native call of the operation, on every branch (panics included); when the open or
create call fails or is never reached, nothing is closed. -/
theorem handle_released_on_every_path {σ : Type} (N : Native σ) (root : Nat)
    (subKey valueName data : List Nat) (value : Nat) (st : σ) :
    HandleReleased (DeleteRegValue (traced N) root subKey valueName (st, [])).2.2 ∧
    HandleReleased (GetRegValueDWORD (traced N) root subKey valueName (st, [])).2.2 ∧
    HandleReleased (GetRegValueString (traced N) root subKey valueName (st, [])).2.2 ∧
    HandleReleased (SetRegValueDWORD (traced N) root subKey valueName value (st, [])).2.2 ∧
    HandleReleased (SetRegValueString (traced N) root subKey valueName data (st, [])).2.2 := by
  refine ⟨?_, ?_, ?_, ?_, ?_⟩
  · simp only [DeleteRegValue, withUTF16Ptr, deferClose, traced, HandleReleased]
    repeat' split
    all_goals simp_all [closedHandles, openedHandles]
  · simp only [GetRegValueDWORD, withUTF16Ptr, deferClose, traced, HandleReleased]
    repeat' split
    all_goals simp_all [closedHandles, openedHandles]
  · simp only [GetRegValueString, withUTF16Ptr, deferClose, traced, HandleReleased]
    repeat' split
    all_goals simp_all [closedHandles, openedHandles]
  · simp only [SetRegValueDWORD, withUTF16Ptr, deferClose, traced, HandleReleased]
    repeat' split
    all_goals simp_all [closedHandles, openedHandles]
  · simp only [SetRegValueString, withUTF16Ptr, deferClose, traced, HandleReleased]
    repeat' split
    all_goals simp_all [closedHandles, openedHandles]

/-! ### The registry model, step by step -/

/-- A record found at an address lies in the value table of an existing key. -/
theorem lookup_eq_some {reg : Registry} {root : Nat} {path name : List Nat} {v : RegValue}
    (h : reg.lookup root path name = some v) :
    ∃ vals, reg.keys root path = some vals ∧ vals name = some v := by
  unfold Registry.lookup at h
  split at h
  · cases h
  · exact ⟨_, by assumption, h⟩

/-- Opening an existing key succeeds and hands out the next handle. -/
theorem model_open (stray : Nat → Nat) (reg : Registry) (root : Nat) (p : List Nat)
    (options sam : Nat) (vals : List Nat → Option RegValue)
    (hk : reg.keys root (wideString p) = some vals) :
    (registryModel stray).RegOpenKeyEx root p options sam reg =
      ((none, reg.next), (reg.openKey root (wideString p) sam).2) := by
  simp [registryModel, modelRegOpenKeyEx, hk, Registry.openKey]

/-- Creating a key always succeeds and hands out the next handle. -/
theorem model_create (stray : Nat → Nat) (reg : Registry) (root : Nat) (p : List Nat)
    (options sam : Nat) :
    (registryModel stray).RegCreateKeyEx root p options sam reg =
      ((none, (reg.ensureKey root (wideString p)).next),
        ((reg.ensureKey root (wideString p)).openKey root (wideString p) sam).2) := by
  simp [registryModel, modelRegCreateKeyEx, Registry.openKey]

/-- After `ensureKey` the key exists and holds the records it held before. -/
theorem ensureKey_keys (reg : Registry) (root : Nat) (path : List Nat) :
    ∃ vals, (reg.ensureKey root path).keys root path = some vals ∧
      ∀ name, vals name = reg.lookup root path name := by
  unfold Registry.ensureKey Registry.lookup
  split
  · rename_i h
    exact ⟨fun _ => none, by simp [Registry.setKey], by simp [h]⟩
  · rename_i vals h
    exact ⟨vals, h, by simp [h]⟩

/-- `ensureKey` changes no value record. -/
theorem ensureKey_lookup (reg : Registry) (root : Nat) (path : List Nat) (root' : Nat)
    (path' name : List Nat) :
    (reg.ensureKey root path).lookup root' path' name = reg.lookup root' path' name := by
  unfold Registry.ensureKey
  split
  · rename_i h
    simp only [Registry.lookup, Registry.setKey]
    by_cases hc : root' = root ∧ path' = path
    · obtain ⟨rfl, rfl⟩ := hc
      simp [h]
    · simp [hc]
  · rfl

/-- A query without data pointer reports the type and size of a stored record. -/
theorem model_query_size (stray : Nat → Nat) (reg : Registry) (h : Nat) (q : List Nat)
    (wantType : Bool) (cb : Nat) (k : OpenKey) (v : RegValue)
    (hh : reg.handles h = some k) (ha : k.access % 2 = 1)
    (hv : reg.lookup k.root k.path (wideString q) = some v) :
    (registryModel stray).RegQueryValueEx h q wantType none cb reg =
      (⟨none, v.valueType, [], v.data.length⟩, reg) := by
  simp [registryModel, modelRegQueryValueEx, hh, ha, hv]

/-- A query with a data pointer and a sufficient size copies the stored bytes. -/
theorem model_query_data (stray : Nat → Nat) (reg : Registry) (h : Nat) (q : List Nat)
    (wantType : Bool) (n cb : Nat) (k : OpenKey) (v : RegValue)
    (hh : reg.handles h = some k) (ha : k.access % 2 = 1)
    (hv : reg.lookup k.root k.path (wideString q) = some v) (hcb : v.data.length ≤ cb) :
    (registryModel stray).RegQueryValueEx h q wantType (some n) cb reg =
      (⟨none, v.valueType, v.data, v.data.length⟩, reg) := by
  simp [registryModel, modelRegQueryValueEx, hh, ha, hv, Nat.not_lt.mpr hcb]

/-- A query of an absent value fails with the not-found code. -/
theorem model_query_absent (stray : Nat → Nat) (reg : Registry) (h : Nat) (q : List Nat)
    (wantType : Bool) (data : Option Nat) (cb : Nat) (k : OpenKey)
    (hh : reg.handles h = some k) (ha : k.access % 2 = 1)
    (hv : reg.lookup k.root k.path (wideString q) = none) :
    (registryModel stray).RegQueryValueEx h q wantType data cb reg =
      (⟨some ERROR_FILE_NOT_FOUND, 0, [], cb⟩, reg) := by
  simp [registryModel, modelRegQueryValueEx, hh, ha, hv]

theorem openKey_handles (reg : Registry) (root : Nat) (path : List Nat) (sam : Nat) :
    (reg.openKey root path sam).2.handles reg.next = some ⟨root, path, sam⟩ := by
  simp [Registry.openKey]

theorem openKey_lookup (reg : Registry) (root : Nat) (path : List Nat) (sam : Nat)
    (root' : Nat) (path' name : List Nat) :
    (reg.openKey root path sam).2.lookup root' path' name = reg.lookup root' path' name := rfl

theorem openKey_keys (reg : Registry) (root : Nat) (path : List Nat) (sam : Nat) :
    (reg.openKey root path sam).2.keys = reg.keys := rfl

theorem closeHandle_lookup (reg : Registry) (h : Nat) (root : Nat) (path name : List Nat) :
    (reg.closeHandle h).lookup root path name = reg.lookup root path name := rfl

theorem KEY_READ_query : KEY_READ % 2 = 1 := by norm_num [KEY_READ]

theorem KEY_WRITE_set : KEY_WRITE / 2 % 2 = 1 := by norm_num [KEY_WRITE]

/-- The integer read on the model, for a stored `REG_DWORD` record: the first four bytes
that land in the variable, decoded. -/
theorem GetRegValueDWORD_model (stray : Nat → Nat) (reg : Registry) (root : Nat)
    (subKey valueName p q : List Nat) (v : RegValue)
    (hs : StringToUTF16Ptr subKey = some p) (hn : StringToUTF16Ptr valueName = some q)
    (hv : reg.lookup root (wideString p) (wideString q) = some v)
    (hty : v.valueType = REG_DWORD) :
    (GetRegValueDWORD (registryModel stray) root subKey valueName reg).1 =
      Outcome.ret (bytesToUint32 (storeBytes (uint32Bytes 0) v.data), none) := by
  obtain ⟨vals, hk, -⟩ := lookup_eq_some hv
  have ho := model_open stray reg root p 0 KEY_READ vals hk
  have hh := openKey_handles reg root (wideString p) KEY_READ
  have hq1 := model_query_size stray _ reg.next q true 0 _ v hh KEY_READ_query hv
  have hq2 := model_query_data stray _ reg.next q false 4 v.data.length _ v hh KEY_READ_query hv
    (Nat.le_refl _)
  simp only [GetRegValueDWORD, withUTF16Ptr, deferClose, hs, hn, ho, hq1, hq2, hty]
  simp


/-- The text read on the model, for a stored `REG_SZ` record of at least two bytes. -/
theorem GetRegValueString_model (stray : Nat → Nat) (reg : Registry) (root : Nat)
    (subKey valueName p q : List Nat) (v : RegValue)
    (hs : StringToUTF16Ptr subKey = some p) (hn : StringToUTF16Ptr valueName = some q)
    (hv : reg.lookup root (wideString p) (wideString q) = some v)
    (hty : v.valueType = REG_SZ) (hlen : v.data.length / 2 ≠ 0) :
    (GetRegValueString (registryModel stray) root subKey valueName reg).1 =
      Outcome.ret (UTF16ToString (bytesToUTF16
        (storeBytes (List.replicate (2 * (v.data.length / 2)) 0) v.data)), none) := by
  obtain ⟨vals, hk, -⟩ := lookup_eq_some hv
  have ho := model_open stray reg root p 0 KEY_READ vals hk
  have hh := openKey_handles reg root (wideString p) KEY_READ
  have hq1 := model_query_size stray _ reg.next q true 0 _ v hh KEY_READ_query hv
  have hq2 := model_query_data stray _ reg.next q false (2 * (v.data.length / 2))
    v.data.length _ v hh KEY_READ_query hv (Nat.le_refl _)
  simp only [GetRegValueString, withUTF16Ptr, deferClose, hs, hn, ho, hq1, hq2, hty]
  simp [hlen]

/-- The integer read on the model when the key exists and the value does not. -/
theorem GetRegValueDWORD_model_absent (stray : Nat → Nat) (reg : Registry) (root : Nat)
    (subKey valueName p q : List Nat) (vals : List Nat → Option RegValue)
    (hs : StringToUTF16Ptr subKey = some p) (hn : StringToUTF16Ptr valueName = some q)
    (hk : reg.keys root (wideString p) = some vals) (hv : vals (wideString q) = none) :
    (GetRegValueDWORD (registryModel stray) root subKey valueName reg).1 =
      Outcome.ret (0, some (NewWindowsError "RegQueryValueEx" ERROR_FILE_NOT_FOUND)) := by
  have ho := model_open stray reg root p 0 KEY_READ vals hk
  have hh := openKey_handles reg root (wideString p) KEY_READ
  have hl : (reg.openKey root (wideString p) KEY_READ).2.lookup root (wideString p)
      (wideString q) = none := by
    rw [openKey_lookup]
    simp [Registry.lookup, hk, hv]
  have hq1 := model_query_absent stray _ reg.next q true none 0 _ hh KEY_READ_query hl
  simp only [GetRegValueDWORD, withUTF16Ptr, deferClose, hs, hn, ho, hq1]

/-- The text read on the model when the key exists and the value does not. -/
theorem GetRegValueString_model_absent (stray : Nat → Nat) (reg : Registry) (root : Nat)
    (subKey valueName p q : List Nat) (vals : List Nat → Option RegValue)
    (hs : StringToUTF16Ptr subKey = some p) (hn : StringToUTF16Ptr valueName = some q)
    (hk : reg.keys root (wideString p) = some vals) (hv : vals (wideString q) = none) :
    (GetRegValueString (registryModel stray) root subKey valueName reg).1 =
      Outcome.ret ([], some (NewWindowsError "RegQueryValueEx" ERROR_FILE_NOT_FOUND)) := by
  have ho := model_open stray reg root p 0 KEY_READ vals hk
  have hh := openKey_handles reg root (wideString p) KEY_READ
  have hl : (reg.openKey root (wideString p) KEY_READ).2.lookup root (wideString p)
      (wideString q) = none := by
    rw [openKey_lookup]
    simp [Registry.lookup, hk, hv]
  have hq1 := model_query_absent stray _ reg.next q true none 0 _ hh KEY_READ_query hl
  simp only [GetRegValueString, withUTF16Ptr, deferClose, hs, hn, ho, hq1]

theorem model_set (stray : Nat → Nat) (reg : Registry) (h : Nat) (q : List Nat)
    (ty : Nat) (data : List Nat) (cb : Nat) (k : OpenKey)
    (vals : List Nat → Option RegValue)
    (hh : reg.handles h = some k) (ha : k.access / 2 % 2 = 1)
    (hk : reg.keys k.root k.path = some vals) :
    (registryModel stray).RegSetValueEx h q ty data cb reg =
      (none, reg.setKey k.root k.path (some fun n =>
        if n = wideString q then some ⟨ty, readMemory stray data cb⟩ else vals n)) := by
  simp [registryModel, modelRegSetValueEx, hh, ha, hk]

theorem model_delete (stray : Nat → Nat) (reg : Registry) (h : Nat) (q : List Nat)
    (k : OpenKey) (vals : List Nat → Option RegValue) (v : RegValue)
    (hh : reg.handles h = some k) (ha : k.access / 2 % 2 = 1)
    (hk : reg.keys k.root k.path = some vals) (hv : vals (wideString q) = some v) :
    (registryModel stray).RegDeleteValue h q reg =
      (none, reg.setKey k.root k.path (some fun n =>
        if n = wideString q then none else vals n)) := by
  simp [registryModel, modelRegDeleteValue, hh, ha, hk, hv]

theorem model_close (stray : Nat → Nat) (reg : Registry) (h : Nat) (k : OpenKey)
    (hh : reg.handles h = some k) :
    (registryModel stray).RegCloseKey h reg = (none, reg.closeHandle h) := by
  simp [registryModel, modelRegCloseKey, hh]

theorem setKey_lookup (reg : Registry) (root : Nat) (path : List Nat)
    (f : List Nat → Option RegValue) (root' : Nat) (path' name : List Nat) :
    (reg.setKey root path (some f)).lookup root' path' name =
      if root' = root ∧ path' = path then f name else reg.lookup root' path' name := by
  simp only [Registry.lookup, Registry.setKey]
  by_cases hc : root' = root ∧ path' = path <;> simp [hc]

theorem setKey_handles (reg : Registry) (root : Nat) (path : List Nat)
    (f : Option (List Nat → Option RegValue)) :
    (reg.setKey root path f).handles = reg.handles := rfl

/-- On the model, the create, set and close calls of a write all succeed and leave exactly
the written record at the address; every other address keeps its record. -/
theorem set_model_steps (stray : Nat → Nat) (reg : Registry) (root : Nat)
    (p q : List Nat) (ty : Nat) (data : List Nat) (cb : Nat) :
    ∃ (h : Nat) (reg1 reg2 reg' : Registry),
      (registryModel stray).RegCreateKeyEx root p 0 KEY_WRITE reg = ((none, h), reg1) ∧
      (registryModel stray).RegSetValueEx h q ty data cb reg1 = (none, reg2) ∧
      (registryModel stray).RegCloseKey h reg2 = (none, reg') ∧
      ∀ root' path' name, reg'.lookup root' path' name =
        if root' = root ∧ path' = wideString p ∧ name = wideString q then
          some ⟨ty, readMemory stray data cb⟩
        else reg.lookup root' path' name := by
  obtain ⟨vals, hk, hvals⟩ := ensureKey_keys reg root (wideString p)
  have hc := model_create stray reg root p 0 KEY_WRITE
  have hh := openKey_handles (reg.ensureKey root (wideString p)) root (wideString p) KEY_WRITE
  have hw := model_set stray _ (reg.ensureKey root (wideString p)).next q ty data cb _ vals hh
    KEY_WRITE_set hk
  have hcl := model_close stray
    (((reg.ensureKey root (wideString p)).openKey root (wideString p) KEY_WRITE).2.setKey
      root (wideString p) (some fun n =>
        if n = wideString q then some ⟨ty, readMemory stray data cb⟩ else vals n))
    (reg.ensureKey root (wideString p)).next _ hh
  refine ⟨_, _, _, _, hc, hw, hcl, ?_⟩
  intro root' path' name
  simp only [closeHandle_lookup, setKey_lookup, openKey_lookup, ensureKey_lookup]
  by_cases hc : root' = root ∧ path' = wideString p
  · obtain ⟨rfl, rfl⟩ := hc
    by_cases hn : name = wideString q
    · simp [hn]
    · simp [hn, hvals]
  · have : ¬ (root' = root ∧ path' = wideString p ∧ name = wideString q) :=
      fun h => hc ⟨h.1, h.2.1⟩
    simp [hc, this]

/-- The integer write on the model: it returns no error and stores the record. -/
theorem SetRegValueDWORD_model (stray : Nat → Nat) (reg : Registry) (root : Nat)
    (subKey valueName p q : List Nat) (v : Nat)
    (hs : StringToUTF16Ptr subKey = some p) (hn : StringToUTF16Ptr valueName = some q) :
    ∃ reg' : Registry,
      SetRegValueDWORD (registryModel stray) root subKey valueName v reg =
        (Outcome.ret none, reg') ∧
      ∀ root' path' name, reg'.lookup root' path' name =
        if root' = root ∧ path' = wideString p ∧ name = wideString q then
          some ⟨REG_DWORD, readMemory stray (uint32Bytes v) 4⟩
        else reg.lookup root' path' name := by
  obtain ⟨h, reg1, reg2, reg', hc, hw, hcl, hl⟩ :=
    set_model_steps stray reg root p q REG_DWORD (uint32Bytes v) 4
  refine ⟨reg', ?_, hl⟩
  simp only [SetRegValueDWORD, withUTF16Ptr, deferClose, hs, hn, hc, hw, hcl]

/-- The text write on the model: it returns no error and stores the `cbData` bytes found
at the encoded buffer. -/
theorem SetRegValueString_model (stray : Nat → Nat) (reg : Registry) (root : Nat)
    (subKey valueName data p q d : List Nat)
    (hs : StringToUTF16Ptr subKey = some p) (hn : StringToUTF16Ptr valueName = some q)
    (hd : StringToUTF16Ptr data = some d) :
    ∃ reg' : Registry,
      SetRegValueString (registryModel stray) root subKey valueName data reg =
        (Outcome.ret none, reg') ∧
      ∀ root' path' name, reg'.lookup root' path' name =
        if root' = root ∧ path' = wideString p ∧ name = wideString q then
          some ⟨REG_SZ, readMemory stray (utf16Bytes d) ((2 * (data.length + 1)) % 4294967296)⟩
        else reg.lookup root' path' name := by
  obtain ⟨h, reg1, reg2, reg', hc, hw, hcl, hl⟩ :=
    set_model_steps stray reg root p q REG_SZ (utf16Bytes d)
      ((2 * (data.length + 1)) % 4294967296)
  refine ⟨reg', ?_, hl⟩
  simp only [SetRegValueString, withUTF16Ptr, deferClose, hs, hn, hd, hc, hw, hcl]

/-- A write that returns did not panic: its string arguments have UTF-16 pointers. -/
theorem SetRegValueDWORD_ret_pointers {σ : Type} (N : Native σ) (root : Nat)
    (subKey valueName : List Nat) (v : Nat) (st : σ)
    (h : (SetRegValueDWORD N root subKey valueName v st).1 = Outcome.ret none) :
    ∃ p q, StringToUTF16Ptr subKey = some p ∧ StringToUTF16Ptr valueName = some q := by
  cases hs : StringToUTF16Ptr subKey with
  | none => simp [SetRegValueDWORD, withUTF16Ptr, hs] at h
  | some p =>
    cases hn : StringToUTF16Ptr valueName with
    | none =>
      simp only [SetRegValueDWORD, withUTF16Ptr, deferClose, hs, hn] at h
      split at h <;> simp at h
    | some q => exact ⟨p, q, rfl, rfl⟩

theorem SetRegValueString_ret_pointers {σ : Type} (N : Native σ) (root : Nat)
    (subKey valueName data : List Nat) (st : σ)
    (h : (SetRegValueString N root subKey valueName data st).1 = Outcome.ret none) :
    ∃ p q d, StringToUTF16Ptr subKey = some p ∧ StringToUTF16Ptr valueName = some q ∧
      StringToUTF16Ptr data = some d := by
  cases hs : StringToUTF16Ptr subKey with
  | none => simp [SetRegValueString, withUTF16Ptr, hs] at h
  | some p =>
    cases hn : StringToUTF16Ptr valueName with
    | none =>
      simp only [SetRegValueString, withUTF16Ptr, deferClose, hs, hn] at h
      split at h <;> simp at h
    | some q =>
      cases hd : StringToUTF16Ptr data with
      | none =>
        simp only [SetRegValueString, withUTF16Ptr, deferClose, hs, hn, hd] at h
        split at h <;> simp at h
      | some d => exact ⟨p, q, d, rfl, rfl, rfl⟩

/-- Four bytes written into a zeroed `uint32` variable decode to the value written. -/
theorem uint32_bytes_roundtrip (v : Nat) (hv : v < 4294967296) :
    bytesToUint32 (storeBytes (uint32Bytes 0) (uint32Bytes v)) = v := by
  simp [bytesToUint32, storeBytes, uint32Bytes]
  omega

theorem readMemory_exact (stray : Nat → Nat) (obj : List Nat) :
    readMemory stray obj obj.length = obj := by
  simp [readMemory]

/-- C3: on the registry model, after `SetRegValueDWORD` returns no error for a 32-bit
value `v`, the address holds the four bytes of `v` tagged `REG_DWORD`, and
`GetRegValueDWORD` of the same root, subkey and name returns `v` and no error. -/
theorem dword_write_then_read (stray : Nat → Nat) (reg : Registry) (root : Nat)
    (subKey valueName : List Nat) (v : Nat) (hv : v < 4294967296)
    (hset : (SetRegValueDWORD (registryModel stray) root subKey valueName v reg).1 =
      Outcome.ret none) :
    (GetRegValueDWORD (registryModel stray) root subKey valueName
      (SetRegValueDWORD (registryModel stray) root subKey valueName v reg).2).1 =
      Outcome.ret (v, none) ∧
    ∃ p q, StringToUTF16Ptr subKey = some p ∧ StringToUTF16Ptr valueName = some q ∧
      (SetRegValueDWORD (registryModel stray) root subKey valueName v reg).2.lookup root
        (wideString p) (wideString q) = some ⟨REG_DWORD, uint32Bytes v⟩ := by
  obtain ⟨p, q, hs, hn⟩ := SetRegValueDWORD_ret_pointers _ root subKey valueName v reg hset
  obtain ⟨reg', hrun, hl⟩ := SetRegValueDWORD_model stray reg root subKey valueName p q v hs hn
  have hrec : reg'.lookup root (wideString p) (wideString q) =
      some ⟨REG_DWORD, uint32Bytes v⟩ := by
    rw [hl]
    simp [readMemory, uint32Bytes]
  rw [hrun]
  refine ⟨?_, p, q, hs, hn, hrec⟩
  rw [GetRegValueDWORD_model stray reg' root subKey valueName p q _ hs hn hrec rfl]
  simp only [uint32_bytes_roundtrip v hv]

theorem dword_write_then_read_witness :
    (SetRegValueDWORD (registryModel fun _ => 0) 1 [0x6B] [0x76] 0xDEADBEEF emptyRegistry).1 =
      Outcome.ret none ∧
    (GetRegValueDWORD (registryModel fun _ => 0) 1 [0x6B] [0x76]
      (SetRegValueDWORD (registryModel fun _ => 0) 1 [0x6B] [0x76] 0xDEADBEEF
        emptyRegistry).2).1 = Outcome.ret (0xDEADBEEF, none) :=
  ⟨by decide,
   (dword_write_then_read (fun _ => 0) emptyRegistry 1 [0x6B] [0x76] 0xDEADBEEF (by decide)
    (by decide)).1⟩


/-! ### Text conversions -/

/-- The decoder consumes at least one byte. -/
theorem decoderune_size_pos (s : List Nat) : 1 ≤ (decoderune s).2 := by
  unfold decoderune
  split
  · simp
  · split_ifs
    · split
      · split_ifs <;> simp
      · simp
    · split
      · simp only []
        split_ifs <;> simp
      · simp
    · split
      · simp only []
        split_ifs <;> simp
      · simp
    · simp

theorem stringToRunesAux_succ (fuel : Nat) :
    ∀ s : List Nat, s.length ≤ fuel → stringToRunesAux (fuel + 1) s = stringToRunesAux fuel s := by
  induction fuel with
  | zero =>
    intro s hs
    have : s = [] := List.length_eq_zero.mp (Nat.le_zero.mp hs)
    subst this
    simp [stringToRunesAux]
  | succ n ih =>
    intro s hs
    cases s with
    | nil => simp [stringToRunesAux]
    | cons b tl =>
      have hpos := decoderune_size_pos (b :: tl)
      have h1 : tl.length ≤ n := by simpa using hs
      have h2 : ((b :: tl).drop (decoderune (b :: tl)).2).length ≤ n := by
        rw [List.length_drop]
        simp only [List.length_cons] at hs ⊢
        omega
      simp only [stringToRunesAux]
      rw [ih tl h1, ih _ h2]

/-- More iterations than the string has bytes change nothing. -/
theorem stringToRunesAux_fuel (k : Nat) (s : List Nat) :
    stringToRunesAux (s.length + k) s = stringToRunesAux s.length s := by
  induction k with
  | zero => rfl
  | succ k ih =>
    rw [← Nat.add_assoc, stringToRunesAux_succ _ s (Nat.le_add_right _ _), ih]

theorem stringToRunes_ascii (b : Nat) (tl : List Nat) (hb : b < 0x80) :
    stringToRunes (b :: tl) = b :: stringToRunes tl := by
  simp [stringToRunes, stringToRunesAux, hb]

theorem stringToRunes_multibyte (b : Nat) (tl : List Nat) (hb : ¬ b < 0x80) :
    stringToRunes (b :: tl) =
      (decoderune (b :: tl)).1 :: stringToRunes ((b :: tl).drop (decoderune (b :: tl)).2) := by
  have hpos := decoderune_size_pos (b :: tl)
  simp only [stringToRunes, List.length_cons, stringToRunesAux, hb, if_false]
  congr 1
  have hlen : tl.length = ((b :: tl).drop (decoderune (b :: tl)).2).length +
      (tl.length - ((b :: tl).drop (decoderune (b :: tl)).2).length) := by
    rw [List.length_drop]
    simp only [List.length_cons]
    omega
  rw [hlen, stringToRunesAux_fuel]

theorem decoderune_two (b0 b1 : Nat) (tl : List Nat) (h0 : 0xC0 ≤ b0 ∧ b0 < 0xE0)
    (h1 : isCont b1 = true) (hr : 0x7F < (b0 % 32) * 64 + b1 % 64) :
    decoderune (b0 :: b1 :: tl) = ((b0 % 32) * 64 + b1 % 64, 2) := by
  simp [decoderune, h0, h1, hr]

theorem decoderune_three (b0 b1 b2 : Nat) (tl : List Nat) (h0 : 0xE0 ≤ b0 ∧ b0 < 0xF0)
    (h1 : isCont b1 = true) (h2 : isCont b2 = true)
    (hr : 0x7FF < (b0 % 16) * 4096 + (b1 % 64) * 64 + b2 % 64)
    (hs : ¬ (0xD800 ≤ (b0 % 16) * 4096 + (b1 % 64) * 64 + b2 % 64 ∧
      (b0 % 16) * 4096 + (b1 % 64) * 64 + b2 % 64 ≤ 0xDFFF)) :
    decoderune (b0 :: b1 :: b2 :: tl) = ((b0 % 16) * 4096 + (b1 % 64) * 64 + b2 % 64, 3) := by
  have h0a : ¬ (0xC0 ≤ b0 ∧ b0 < 0xE0) := by omega
  simp only [decoderune, h0a, h0, h1, h2, hr, hs, if_false, if_true, and_self, not_false_eq_true]

theorem decoderune_four (b0 b1 b2 b3 : Nat) (tl : List Nat) (h0 : 0xF0 ≤ b0 ∧ b0 < 0xF8)
    (h1 : isCont b1 = true) (h2 : isCont b2 = true) (h3 : isCont b3 = true)
    (hr : 0xFFFF < (b0 % 8) * 262144 + (b1 % 64) * 4096 + (b2 % 64) * 64 + b3 % 64)
    (hm : (b0 % 8) * 262144 + (b1 % 64) * 4096 + (b2 % 64) * 64 + b3 % 64 ≤ 0x10FFFF) :
    decoderune (b0 :: b1 :: b2 :: b3 :: tl) =
      ((b0 % 8) * 262144 + (b1 % 64) * 4096 + (b2 % 64) * 64 + b3 % 64, 4) := by
  have h0a : ¬ (0xC0 ≤ b0 ∧ b0 < 0xE0) := by omega
  have h0b : ¬ (0xE0 ≤ b0 ∧ b0 < 0xF0) := by omega
  simp only [decoderune, h0a, h0b, h0, h1, h2, h3, hr, hm, if_false, if_true, and_self]

theorem isCont_low6 (x : Nat) : isCont (0x80 + x % 64) = true := by
  simp only [isCont, Bool.and_eq_true, decide_eq_true_eq]
  omega

/-- Decoding the UTF-8 form of a scalar value above ASCII gives it back, with its size. -/
theorem decoderune_encoderune (r : Nat) (tl : List Nat) (hv : validRune r) (h80 : ¬ r < 0x80) :
    decoderune (encoderune r ++ tl) = (r, (encoderune r).length) := by
  unfold validRune at hv
  unfold encoderune
  split_ifs with h1 h2 h3 h4
  · omega
  · rw [List.cons_append, List.cons_append, List.nil_append,
      decoderune_two _ _ _ (by omega) (isCont_low6 _) (by omega)]
    simp only [List.length_cons, List.length_nil, Prod.mk.injEq, and_true]
    omega
  · omega
  · rw [List.cons_append, List.cons_append, List.cons_append, List.nil_append,
      decoderune_three _ _ _ _ (by omega) (isCont_low6 _) (isCont_low6 _) (by omega) (by omega)]
    simp only [List.length_cons, List.length_nil, Prod.mk.injEq, and_true]
    omega
  · rw [List.cons_append, List.cons_append, List.cons_append, List.cons_append,
      List.nil_append,
      decoderune_four _ _ _ _ _ (by omega) (isCont_low6 _) (isCont_low6 _) (isCont_low6 _)
        (by omega) (by omega)]
    simp only [List.length_cons, List.length_nil, Prod.mk.injEq, and_true]
    omega

theorem encoderune_ascii (r : Nat) (h : r < 0x80) : encoderune r = [r] := by
  simp [encoderune, Nat.le_of_lt_succ h]

theorem stringToRunes_encoderune (r : Nat) (tl : List Nat) (hv : validRune r) :
    stringToRunes (encoderune r ++ tl) = r :: stringToRunes tl := by
  by_cases h80 : r < 0x80
  · rw [encoderune_ascii r h80]
    exact stringToRunes_ascii r tl h80
  · have hd := decoderune_encoderune r tl hv h80
    have hne : ∃ b rest, encoderune r = b :: rest ∧ ¬ b < 0x80 := by
      unfold validRune at hv
      unfold encoderune
      split_ifs
      · omega
      · exact ⟨_, _, rfl, by omega⟩
      · exact ⟨_, _, rfl, by omega⟩
      · exact ⟨_, _, rfl, by omega⟩
      · exact ⟨_, _, rfl, by omega⟩
    obtain ⟨b, rest, hb, hb80⟩ := hne
    have hcons : encoderune r ++ tl = b :: (rest ++ tl) := by rw [hb]; rfl
    rw [hcons] at hd ⊢
    rw [stringToRunes_multibyte b _ hb80, hd]
    simp only
    rw [← hcons, List.drop_left]

/-- The conversion `[]rune(s)` undoes `string(runes)` on scalar values. -/
theorem stringToRunes_runesToString (rs tl : List Nat) (hv : ∀ r ∈ rs, validRune r) :
    stringToRunes (runesToString rs ++ tl) = rs ++ stringToRunes tl := by
  induction rs with
  | nil => rfl
  | cons r rs ih =>
    simp only [runesToString, List.append_assoc, List.cons_append]
    rw [stringToRunes_encoderune r _ (hv r (List.mem_cons_self _ _)),
      ih (fun x hx => hv x (List.mem_cons_of_mem _ hx))]

theorem utf16Encode_append (a b : List Nat) :
    utf16Encode (a ++ b) = utf16Encode a ++ utf16Encode b := by
  induction a with
  | nil => rfl
  | cons v vs ih =>
    rw [List.cons_append]
    simp only [utf16Encode]
    split_ifs <;> simp [ih]

theorem utf16Decode_normal (r : Nat) (tl : List Nat) (h : r < 0xD800 ∨ 0xE000 ≤ r) :
    utf16Decode (r :: tl) = r :: utf16Decode tl := by
  cases tl with
  | nil => simp [utf16Decode, h]
  | cons r2 tl => simp [utf16Decode, h]

theorem utf16Decode_pair (r r2 : Nat) (tl : List Nat) (h1 : 0xD800 ≤ r ∧ r < 0xDC00)
    (h2 : 0xDC00 ≤ r2 ∧ r2 < 0xE000) :
    utf16Decode (r :: r2 :: tl) =
      ((r - 0xD800) * 1024 + (r2 - 0xDC00) + 0x10000) :: utf16Decode tl := by
  have hn : ¬ (r < 0xD800 ∨ 0xE000 ≤ r) := by omega
  simp only [utf16Decode, hn, h1.2, h2.1, h2.2, if_false, if_true, and_self]

/-- The function `utf16.Decode` undoes `utf16.Encode` on scalar values. -/
theorem utf16Decode_encode (rs : List Nat) (hv : ∀ r ∈ rs, validRune r) :
    utf16Decode (utf16Encode rs) = rs := by
  induction rs with
  | nil => rfl
  | cons r rs ih =>
    have hr : validRune r := hv r (List.mem_cons_self _ _)
    have ih' := ih (fun x hx => hv x (List.mem_cons_of_mem _ hx))
    unfold validRune at hr
    simp only [utf16Encode]
    split_ifs with h1 h2
    · rw [utf16Decode_normal r _ (by omega), ih']
    · rw [utf16Decode_pair _ _ _ (by omega) (by omega), ih']
      congr 1
      omega
    · omega

theorem utf16Encode_no_zero (rs : List Nat) (hz : 0 ∉ rs) : 0 ∉ utf16Encode rs := by
  induction rs with
  | nil => simp [utf16Encode]
  | cons r rs ih =>
    have hr : r ≠ 0 := fun h => hz (h ▸ List.mem_cons_self _ _)
    have ih' := ih (fun h => hz (List.mem_cons_of_mem _ h))
    simp only [utf16Encode]
    split_ifs
    · simp only [List.mem_cons, not_or]
      exact ⟨fun h => hr h.symm, ih'⟩
    · simp only [List.mem_cons, not_or]
      exact ⟨by omega, by omega, ih'⟩
    · simp only [List.mem_cons, not_or]
      exact ⟨by simp [runeError], ih'⟩

theorem utf16Encode_lt (rs : List Nat) : ∀ u ∈ utf16Encode rs, u < 65536 := by
  induction rs with
  | nil => simp [utf16Encode]
  | cons r rs ih =>
    simp only [utf16Encode]
    split_ifs
    · intro u hu
      rcases List.mem_cons.mp hu with h | h
      · omega
      · exact ih u h
    · intro u hu
      rcases List.mem_cons.mp hu with h | h
      · omega
      · rcases List.mem_cons.mp h with h | h
        · omega
        · exact ih u h
    · intro u hu
      rcases List.mem_cons.mp hu with h | h
      · simp [h, runeError]
      · exact ih u h

theorem encoderune_length_pos (r : Nat) : 1 ≤ (encoderune r).length := by
  unfold encoderune
  split_ifs <;> simp

/-- A text has at most as many UTF-16 units as UTF-8 bytes. -/
theorem utf16Encode_length_le (rs : List Nat) :
    (utf16Encode rs).length ≤ (runesToString rs).length := by
  induction rs with
  | nil => simp [utf16Encode, runesToString]
  | cons r rs ih =>
    have hp := encoderune_length_pos r
    simp only [utf16Encode, runesToString, List.length_append]
    split_ifs with h1 h2
    · simp only [List.length_cons]
      omega
    · have h4 : (encoderune r).length = 4 := by
        unfold encoderune
        split_ifs <;> first | omega | rfl
      simp only [List.length_cons]
      omega
    · simp only [List.length_cons]
      omega

theorem runesToString_no_zero (rs : List Nat) (hz : 0 ∉ runesToString rs) : 0 ∉ rs := by
  induction rs with
  | nil => simp
  | cons r rs ih =>
    simp only [runesToString, List.mem_append, not_or] at hz
    simp only [List.mem_cons, not_or]
    refine ⟨?_, ih hz.2⟩
    intro h
    subst h
    exact hz.1 (by simp [encoderune])

theorem utf16Bytes_length (us : List Nat) : (utf16Bytes us).length = 2 * us.length := by
  induction us with
  | nil => rfl
  | cons u us ih =>
    simp only [utf16Bytes, List.length_cons, ih]
    omega

theorem bytesToUTF16_utf16Bytes (us rest : List Nat) (hlt : ∀ u ∈ us, u < 65536) :
    bytesToUTF16 (utf16Bytes us ++ rest) = us ++ bytesToUTF16 rest := by
  induction us with
  | nil => rfl
  | cons u us ih =>
    have hu := hlt u (List.mem_cons_self _ _)
    have ih' := ih (fun x hx => hlt x (List.mem_cons_of_mem _ hx))
    simp only [utf16Bytes, List.cons_append, bytesToUTF16, ih']
    congr 1
    omega

theorem takeWhile_until_zero (us junk : List Nat) (hz : 0 ∉ us) :
    (us ++ 0 :: junk).takeWhile (fun v => v ≠ 0) = us := by
  induction us with
  | nil => simp
  | cons u us ih =>
    have hu : u ≠ 0 := fun h => hz (h ▸ List.mem_cons_self _ _)
    simp only [List.cons_append, List.takeWhile_cons, hu, ne_eq, not_false_eq_true,
      decide_True, if_true]
    rw [ih (fun h => hz (List.mem_cons_of_mem _ h))]

theorem storeBytes_full (n : Nat) (w : List Nat) (h : w.length = n) :
    storeBytes (List.replicate n 0) w = w := by
  simp [storeBytes, h]

theorem readMemory_length (stray : Nat → Nat) (obj : List Nat) (n : Nat)
    (h : obj.length ≤ n) : (readMemory stray obj n).length = n := by
  simp only [readMemory, List.length_append, List.length_take, List.length_map,
    List.length_range]
  omega

theorem readMemory_extends (stray : Nat → Nat) (obj : List Nat) (n : Nat)
    (h : obj.length ≤ n) : ∃ junk, readMemory stray obj n = obj ++ junk := by
  exact ⟨(List.range (n - obj.length)).map (fun i => stray i % 256),
    by simp only [readMemory, List.take_of_length_le h]⟩

/-- The UTF-16 buffer made for a valid text: its units followed by the NUL. -/
theorem UTF16FromString_runes (rs d : List Nat) (hv : ∀ r ∈ rs, validRune r)
    (hd : UTF16FromString (runesToString rs) = some d) :
    0 ∉ runesToString rs ∧ d = utf16Encode rs ++ [0] := by
  unfold UTF16FromString at hd
  split_ifs at hd with hz
  refine ⟨hz, ?_⟩
  simp only [Option.some.injEq] at hd
  rw [← hd, stringToRunes_runesToString rs [0] hv, utf16Encode_append]
  rfl

/-- The text read back from the record a write stored: the units up to the NUL decode to
the runes that were encoded. -/
theorem UTF16ToString_stored (stray : Nat → Nat) (rs : List Nat)
    (hv : ∀ r ∈ rs, validRune r) (hz : 0 ∉ runesToString rs)
    (hlen : 2 * ((runesToString rs).length + 1) < 4294967296) :
    ((readMemory stray (utf16Bytes (utf16Encode rs ++ [0]))
      ((2 * ((runesToString rs).length + 1)) % 4294967296)).length / 2 ≠ 0) ∧
    UTF16ToString (bytesToUTF16 (storeBytes
      (List.replicate (2 * ((readMemory stray (utf16Bytes (utf16Encode rs ++ [0]))
        ((2 * ((runesToString rs).length + 1)) % 4294967296)).length / 2)) 0)
      (readMemory stray (utf16Bytes (utf16Encode rs ++ [0]))
        ((2 * ((runesToString rs).length + 1)) % 4294967296)))) = runesToString rs := by
  rw [Nat.mod_eq_of_lt hlen]
  have hle := utf16Encode_length_le rs
  have hobj : (utf16Bytes (utf16Encode rs ++ [0])).length ≤
      2 * ((runesToString rs).length + 1) := by
    rw [utf16Bytes_length, List.length_append, List.length_singleton]
    omega
  have hl := readMemory_length stray _ _ hobj
  obtain ⟨junk, hj⟩ := readMemory_extends stray _ _ hobj
  rw [hl]
  have hhalf : 2 * ((runesToString rs).length + 1) / 2 = (runesToString rs).length + 1 := by
    omega
  refine ⟨by omega, ?_⟩
  rw [hhalf, storeBytes_full _ _ hl, hj]
  have hlt : ∀ u ∈ utf16Encode rs ++ [0], u < 65536 := by
    intro u hu
    rcases List.mem_append.mp hu with h | h
    · exact utf16Encode_lt rs u h
    · simp only [List.mem_singleton] at h
      omega
  rw [bytesToUTF16_utf16Bytes _ _ hlt]
  unfold UTF16ToString
  rw [List.append_assoc, List.singleton_append,
    takeWhile_until_zero _ _ (utf16Encode_no_zero rs (runesToString_no_zero rs hz)),
    utf16Decode_encode rs hv]

/-- C1 (as stated, refuted): the one-byte Go string `"\xff"` is not valid UTF-8; it is
written as the replacement character, and reading it back gives the three bytes
`"\xef\xbf\xbd"`, not the original string. -/
theorem invalid_utf8_not_read_back :
    (SetRegValueString (registryModel fun _ => 0) 1 [0x6B] [0x76] [0xFF] emptyRegistry).1 =
      Outcome.ret none ∧
    (GetRegValueString (registryModel fun _ => 0) 1 [0x6B] [0x76]
      (SetRegValueString (registryModel fun _ => 0) 1 [0x6B] [0x76] [0xFF]
        emptyRegistry).2).1 = Outcome.ret ([0xEF, 0xBF, 0xBD], none) ∧
    (GetRegValueString (registryModel fun _ => 0) 1 [0x6B] [0x76]
      (SetRegValueString (registryModel fun _ => 0) 1 [0x6B] [0x76] [0xFF]
        emptyRegistry).2).1 ≠ Outcome.ret ([0xFF], none) := by
  decide

/-- C1 (amended): for every text `s` that is the UTF-8 form of a sequence of Unicode
scalar values and has fewer than `2^31 - 1` bytes, on the registry model and whatever
bytes lie in memory past the encoded buffer: after `SetRegValueString` returns no error,
`GetRegValueString` of the same root, subkey and name returns `s` and no error, and the
returned text has no NUL. -/
theorem text_write_then_read (stray : Nat → Nat) (reg : Registry) (root : Nat)
    (subKey valueName rs : List Nat) (hv : ∀ r ∈ rs, validRune r)
    (hlen : 2 * ((runesToString rs).length + 1) < 4294967296)
    (hset : (SetRegValueString (registryModel stray) root subKey valueName
      (runesToString rs) reg).1 = Outcome.ret none) :
    (GetRegValueString (registryModel stray) root subKey valueName
      (SetRegValueString (registryModel stray) root subKey valueName
        (runesToString rs) reg).2).1 = Outcome.ret (runesToString rs, none) ∧
    0 ∉ runesToString rs := by
  obtain ⟨p, q, d, hs, hn, hd⟩ :=
    SetRegValueString_ret_pointers _ root subKey valueName (runesToString rs) reg hset
  obtain ⟨hz, rfl⟩ := UTF16FromString_runes rs d hv hd
  obtain ⟨reg', hrun, hl⟩ :=
    SetRegValueString_model stray reg root subKey valueName (runesToString rs) p q _ hs hn hd
  have hrec := hl root (wideString p) (wideString q)
  simp only [and_self, if_true] at hrec
  obtain ⟨hne, htext⟩ := UTF16ToString_stored stray rs hv hz hlen
  rw [hrun]
  refine ⟨?_, hz⟩
  rw [GetRegValueString_model stray reg' root subKey valueName p q _ hs hn hrec rfl hne]
  simp only [htext]

/-- C1 (amended) at a concrete input: the text of the runes U+0041, U+00E9, U+1F600 (7 bytes, 4 UTF-16 units) with
non-zero bytes in memory past the encoded buffer. -/
theorem text_write_then_read_witness :
    (SetRegValueString (registryModel fun i => i + 1) 1 [0x6B] [0x76]
      (runesToString [0x41, 0xE9, 0x1F600]) emptyRegistry).1 = Outcome.ret none ∧
    (GetRegValueString (registryModel fun i => i + 1) 1 [0x6B] [0x76]
      (SetRegValueString (registryModel fun i => i + 1) 1 [0x6B] [0x76]
        (runesToString [0x41, 0xE9, 0x1F600]) emptyRegistry).2).1 =
      Outcome.ret ([0x41, 0xC3, 0xA9, 0xF0, 0x9F, 0x98, 0x80], none) :=
  ⟨by decide,
   (text_write_then_read (fun i => i + 1) emptyRegistry 1 [0x6B] [0x76] [0x41, 0xE9, 0x1F600]
    (by simp [validRune]) (by decide) (by decide)).1⟩

/-- The delete on the model, for an existing value: it returns no error, the key stays,
the value is gone and every other record is kept. -/
theorem DeleteRegValue_model (stray : Nat → Nat) (reg : Registry) (root : Nat)
    (subKey valueName p q : List Nat) (v : RegValue)
    (hs : StringToUTF16Ptr subKey = some p) (hn : StringToUTF16Ptr valueName = some q)
    (hv : reg.lookup root (wideString p) (wideString q) = some v) :
    ∃ (reg' : Registry) (vals' : List Nat → Option RegValue),
      DeleteRegValue (registryModel stray) root subKey valueName reg =
        (Outcome.ret none, reg') ∧
      reg'.keys root (wideString p) = some vals' ∧ vals' (wideString q) = none ∧
      ∀ root' path' name, ¬ (root' = root ∧ path' = wideString p ∧ name = wideString q) →
        reg'.lookup root' path' name = reg.lookup root' path' name := by
  obtain ⟨vals, hk, hvals⟩ := lookup_eq_some hv
  have ho := model_open stray reg root p 0 KEY_WRITE vals hk
  have hh := openKey_handles reg root (wideString p) KEY_WRITE
  have hd := model_delete stray (reg.openKey root (wideString p) KEY_WRITE).2 reg.next q _ vals v
    hh KEY_WRITE_set hk hvals
  have hcl := model_close stray
    ((reg.openKey root (wideString p) KEY_WRITE).2.setKey root (wideString p)
      (some fun n => if n = wideString q then none else vals n)) reg.next _ hh
  refine ⟨((reg.openKey root (wideString p) KEY_WRITE).2.setKey root (wideString p)
      (some fun n => if n = wideString q then none else vals n)).closeHandle reg.next,
    fun n => if n = wideString q then none else vals n, ?_, ?_, ?_, ?_⟩
  · simp only [DeleteRegValue, withUTF16Ptr, deferClose, hs, hn, ho, hd, hcl]
  · simp [Registry.closeHandle, Registry.setKey]
  · simp
  · intro root' path' name hne
    simp only [closeHandle_lookup, setKey_lookup, openKey_lookup]
    by_cases hc : root' = root ∧ path' = wideString p
    · obtain ⟨rfl, rfl⟩ := hc
      have hname : name ≠ wideString q := fun h => hne ⟨rfl, rfl, h⟩
      simp [hname, Registry.lookup, hk]
    · simp [hc]

/-- C8: on the registry model, when a value exists at a root, subkey and name,
`DeleteRegValue` returns no error; afterwards `GetRegValueDWORD` and `GetRegValueString`
of the same address return the wrapped `RegQueryValueEx` error carrying the native
not-found code (not the unsupported-type error, not a value), and every other value
record of the registry is unchanged. -/
theorem delete_then_read_not_found (stray : Nat → Nat) (reg : Registry) (root : Nat)
    (subKey valueName p q : List Nat) (v : RegValue)
    (hs : StringToUTF16Ptr subKey = some p) (hn : StringToUTF16Ptr valueName = some q)
    (hv : reg.lookup root (wideString p) (wideString q) = some v) :
    (DeleteRegValue (registryModel stray) root subKey valueName reg).1 = Outcome.ret none ∧
    (GetRegValueDWORD (registryModel stray) root subKey valueName
      (DeleteRegValue (registryModel stray) root subKey valueName reg).2).1 =
      Outcome.ret (0, some (NewWindowsError "RegQueryValueEx" ERROR_FILE_NOT_FOUND)) ∧
    (GetRegValueString (registryModel stray) root subKey valueName
      (DeleteRegValue (registryModel stray) root subKey valueName reg).2).1 =
      Outcome.ret ([], some (NewWindowsError "RegQueryValueEx" ERROR_FILE_NOT_FOUND)) ∧
    ∀ root' path' name, ¬ (root' = root ∧ path' = wideString p ∧ name = wideString q) →
      (DeleteRegValue (registryModel stray) root subKey valueName reg).2.lookup
        root' path' name = reg.lookup root' path' name := by
  obtain ⟨reg', vals', hrun, hk, hgone, hrest⟩ :=
    DeleteRegValue_model stray reg root subKey valueName p q v hs hn hv
  rw [hrun]
  exact ⟨rfl,
    GetRegValueDWORD_model_absent stray reg' root subKey valueName p q vals' hs hn hk hgone,
    GetRegValueString_model_absent stray reg' root subKey valueName p q vals' hs hn hk hgone,
    hrest⟩

/-- C8 at a concrete input: the value `v` under the key `k` of root 1. -/
theorem delete_then_read_not_found_witness :
    (DeleteRegValue (registryModel fun _ => 0) 1 [0x6B] [0x76]
      (oneValueRegistry [0x76] ⟨REG_DWORD, [7, 0, 0, 0]⟩)).1 = Outcome.ret none ∧
    (GetRegValueDWORD (registryModel fun _ => 0) 1 [0x6B] [0x76]
      (DeleteRegValue (registryModel fun _ => 0) 1 [0x6B] [0x76]
        (oneValueRegistry [0x76] ⟨REG_DWORD, [7, 0, 0, 0]⟩)).2).1 =
      Outcome.ret (0, some (NewWindowsError "RegQueryValueEx" ERROR_FILE_NOT_FOUND)) :=
  have h := delete_then_read_not_found (fun _ => 0)
    (oneValueRegistry [0x76] ⟨REG_DWORD, [7, 0, 0, 0]⟩) 1 [0x6B] [0x76] [0x6B, 0] [0x76, 0]
    ⟨REG_DWORD, [7, 0, 0, 0]⟩ (by decide) (by decide) (by decide)
  ⟨h.1, h.2.1⟩

/-- C4: when the key opens and the type query succeeds but reports a type other than the
requested one, `GetRegValueDWORD` returns `(0, ERROR_UNSUPPORTED_TYPE)` and
`GetRegValueString` returns `("", ERROR_UNSUPPORTED_TYPE)`; the native calls made are
the open, the type query (no data pointer) and the close, so no data-reading query is
performed. -/
theorem type_mismatch_is_unsupported_type {σ : Type} (N : Native σ) (root : Nat)
    (subKey valueName pSubKey pName : List Nat) (st : σ)
    (o : (Option Nat × Nat) × σ) (q : QueryResult × σ)
    (hs : StringToUTF16Ptr subKey = some pSubKey)
    (hn : StringToUTF16Ptr valueName = some pName)
    (ho : N.RegOpenKeyEx root pSubKey 0 KEY_READ st = o) (hopen : o.1.1 = none)
    (hq : N.RegQueryValueEx o.1.2 pName true none 0 o.2 = q) (hquery : q.1.err = none) :
    (q.1.valueType ≠ REG_DWORD →
      GetRegValueDWORD (traced N) root subKey valueName (st, []) =
        (Outcome.ret (0, some (GoError.errno ERROR_UNSUPPORTED_TYPE)),
          ((N.RegCloseKey o.1.2 q.2).2,
            [Event.regOpenKeyEx root pSubKey 0 KEY_READ none o.1.2,
             Event.regQueryValueEx o.1.2 pName true none 0 q.1,
             Event.regCloseKey o.1.2 (N.RegCloseKey o.1.2 q.2).1]))) ∧
    (q.1.valueType ≠ REG_SZ →
      GetRegValueString (traced N) root subKey valueName (st, []) =
        (Outcome.ret ([], some (GoError.errno ERROR_UNSUPPORTED_TYPE)),
          ((N.RegCloseKey o.1.2 q.2).2,
            [Event.regOpenKeyEx root pSubKey 0 KEY_READ none o.1.2,
             Event.regQueryValueEx o.1.2 pName true none 0 q.1,
             Event.regCloseKey o.1.2 (N.RegCloseKey o.1.2 q.2).1]))) := by
  subst ho hq
  constructor
  · intro hty
    simp [GetRegValueDWORD, withUTF16Ptr, deferClose, traced, hs, hn, hopen, hquery, hty]
  · intro hty
    simp [GetRegValueString, withUTF16Ptr, deferClose, traced, hs, hn, hopen, hquery, hty]

/-- C4 at a concrete input: a text value read with the integer accessor, and an integer
value read with the text accessor, on the registry model. -/
theorem type_mismatch_is_unsupported_type_witness :
    (GetRegValueDWORD (traced (registryModel fun _ => 0)) 1 [0x6B] [0x76]
      (oneValueRegistry [0x76] ⟨REG_SZ, [0x41, 0, 0, 0]⟩, [])).1 =
      Outcome.ret (0, some (GoError.errno ERROR_UNSUPPORTED_TYPE)) ∧
    (GetRegValueString (traced (registryModel fun _ => 0)) 1 [0x6B] [0x76]
      (oneValueRegistry [0x76] ⟨REG_DWORD, [7, 0, 0, 0]⟩, [])).1 =
      Outcome.ret ([], some (GoError.errno ERROR_UNSUPPORTED_TYPE)) :=
  ⟨congrArg Prod.fst
    ((type_mismatch_is_unsupported_type (registryModel fun _ => 0) 1 [0x6B] [0x76]
      [0x6B, 0] [0x76, 0] (oneValueRegistry [0x76] ⟨REG_SZ, [0x41, 0, 0, 0]⟩) _ _
      (by decide) (by decide) rfl (by decide) rfl (by decide)).1 (by decide)),
   congrArg Prod.fst
    ((type_mismatch_is_unsupported_type (registryModel fun _ => 0) 1 [0x6B] [0x76]
      [0x6B, 0] [0x76, 0] (oneValueRegistry [0x76] ⟨REG_DWORD, [7, 0, 0, 0]⟩) _ _
      (by decide) (by decide) rfl (by decide) rfl (by decide)).2 (by decide))⟩

/-- C2 (defect shown at `"é"`): the text `"é"` is two UTF-8 bytes and one UTF-16 unit; the
buffer handed to the native set-value call has 4 bytes (one unit and the NUL) while the
size passed is 6. -/
theorem SetRegValueString_size_exceeds_buffer :
    UTF16FromString [0xC3, 0xA9] = some [0xE9, 0] ∧
    (SetRegValueString (traced (registryModel fun _ => 0)) 1 [0x6B] [0x76] [0xC3, 0xA9]
      (emptyRegistry, [])).2.2 =
      [Event.regCreateKeyEx 1 [0x6B, 0] 0 KEY_WRITE none 1,
       Event.regSetValueEx 1 [0x76, 0] REG_SZ [0xE9, 0, 0, 0] 6 none,
       Event.regCloseKey 1 none] := by
  decide

/-- C9 (defect shown at an 8-byte `REG_DWORD` value): the first query reports size 8, and
the second query is handed the 4-byte integer with size 8; the native call writes 8
bytes. -/
theorem GetRegValueDWORD_size_exceeds_buffer :
    (GetRegValueDWORD (traced (registryModel fun _ => 0)) 1 [0x6B] [0x76]
      (oneValueRegistry [0x76] ⟨REG_DWORD, [1, 2, 3, 4, 5, 6, 7, 8]⟩, [])).2.2 =
      [Event.regOpenKeyEx 1 [0x6B, 0] 0 KEY_READ none 1,
       Event.regQueryValueEx 1 [0x76, 0] true none 0 ⟨none, REG_DWORD, [], 8⟩,
       Event.regQueryValueEx 1 [0x76, 0] false (some 4) 8
         ⟨none, REG_DWORD, [1, 2, 3, 4, 5, 6, 7, 8], 8⟩,
       Event.regCloseKey 1 none] := by
  decide

/-- C10 (defect shown at an empty and at a 3-byte `REG_SZ` value): with size 0 the buffer
has no element and taking the address of its first element panics (the key is still
closed); with size 3 the buffer of one element (2 bytes) is handed over with size 3 and
the native call writes 3 bytes. -/
theorem GetRegValueString_buffer_too_small :
    (GetRegValueString (traced (registryModel fun _ => 0)) 1 [0x6B] [0x76]
      (oneValueRegistry [0x76] ⟨REG_SZ, []⟩, [])).1 =
      Outcome.panic Panic.indexOutOfRange ∧
    (GetRegValueString (traced (registryModel fun _ => 0)) 1 [0x6B] [0x76]
      (oneValueRegistry [0x76] ⟨REG_SZ, []⟩, [])).2.2 =
      [Event.regOpenKeyEx 1 [0x6B, 0] 0 KEY_READ none 1,
       Event.regQueryValueEx 1 [0x76, 0] true none 0 ⟨none, REG_SZ, [], 0⟩,
       Event.regCloseKey 1 none] ∧
    (GetRegValueString (traced (registryModel fun _ => 0)) 1 [0x6B] [0x76]
      (oneValueRegistry [0x76] ⟨REG_SZ, [0x41, 0, 0x42]⟩, [])).2.2 =
      [Event.regOpenKeyEx 1 [0x6B, 0] 0 KEY_READ none 1,
       Event.regQueryValueEx 1 [0x76, 0] true none 0 ⟨none, REG_SZ, [], 3⟩,
       Event.regQueryValueEx 1 [0x76, 0] false (some 2) 3 ⟨none, REG_SZ, [0x41, 0, 0x42], 3⟩,
       Event.regCloseKey 1 none] := by
  decide

/-- C7 (as stated, refuted): when only the handle close fails, `DeleteRegValue` returns
no error although one of its native calls failed. -/
theorem close_failure_is_not_reported :
    (DeleteRegValue (traced closeFailingLayer) 1 [0x6B] [0x76] ((), [])).1 = Outcome.ret none ∧
    (DeleteRegValue (traced closeFailingLayer) 1 [0x6B] [0x76] ((), [])).2.2 =
      [Event.regOpenKeyEx 1 [0x6B, 0] 0 KEY_WRITE none 1,
       Event.regDeleteValue 1 [0x76, 0] none,
       Event.regCloseKey 1 (some ERROR_INVALID_HANDLE)] ∧
    ¬ ErrorTaxonomy Event.anyFailure REG_DWORD
      (DeleteRegValue (traced closeFailingLayer) 1 [0x6B] [0x76] ((), [])).2.2
      (returnedError (DeleteRegValue (traced closeFailingLayer) 1 [0x6B] [0x76] ((), [])).1) := by
  refine ⟨by decide, by decide, ?_⟩
  intro h
  have h1 := h.1
  revert h1
  decide


/-- The error taxonomy holds for `DeleteRegValue`, whatever the native calls return. -/
theorem DeleteRegValue_taxonomy {σ : Type} (N : Native σ) (root : Nat)
    (subKey valueName : List Nat) (st : σ) :
    ErrorTaxonomy Event.failure REG_DWORD
      (DeleteRegValue (traced N) root subKey valueName (st, [])).2.2
      (returnedError (DeleteRegValue (traced N) root subKey valueName (st, [])).1) := by
  simp only [DeleteRegValue, withUTF16Ptr, deferClose, traced, ErrorTaxonomy]
  repeat' split
  all_goals simp only [*]
  all_goals simp [callsAfterFailure, Event.failure, Event.anyFailure, Event.err, Event.name,
    Event.mismatch, Event.isClose, returnedError, readError, NewWindowsError]

/-- The error taxonomy holds for `GetRegValueDWORD`, whatever the native calls return. -/
theorem GetRegValueDWORD_taxonomy {σ : Type} (N : Native σ) (root : Nat)
    (subKey valueName : List Nat) (st : σ) :
    ErrorTaxonomy Event.failure REG_DWORD
      (GetRegValueDWORD (traced N) root subKey valueName (st, [])).2.2
      (readError (GetRegValueDWORD (traced N) root subKey valueName (st, [])).1) := by
  simp only [GetRegValueDWORD, withUTF16Ptr, deferClose, traced, ErrorTaxonomy]
  repeat' split
  all_goals simp only [*]
  all_goals simp [callsAfterFailure, Event.failure, Event.anyFailure, Event.err, Event.name,
    Event.mismatch, Event.isClose, returnedError, readError, NewWindowsError]
  all_goals simp_all

/-- The error taxonomy holds for `GetRegValueString`, whatever the native calls return. -/
theorem GetRegValueString_taxonomy {σ : Type} (N : Native σ) (root : Nat)
    (subKey valueName : List Nat) (st : σ) :
    ErrorTaxonomy Event.failure REG_SZ
      (GetRegValueString (traced N) root subKey valueName (st, [])).2.2
      (readError (GetRegValueString (traced N) root subKey valueName (st, [])).1) := by
  simp only [GetRegValueString, withUTF16Ptr, deferClose, traced, ErrorTaxonomy]
  repeat' split
  all_goals simp only [*]
  all_goals simp [callsAfterFailure, Event.failure, Event.anyFailure, Event.err, Event.name,
    Event.mismatch, Event.isClose, returnedError, readError, NewWindowsError]
  all_goals simp_all

/-- The error taxonomy holds for `SetRegValueDWORD`, whatever the native calls return. -/
theorem SetRegValueDWORD_taxonomy {σ : Type} (N : Native σ) (root : Nat)
    (subKey valueName : List Nat) (value : Nat) (st : σ) :
    ErrorTaxonomy Event.failure REG_DWORD
      (SetRegValueDWORD (traced N) root subKey valueName value (st, [])).2.2
      (returnedError (SetRegValueDWORD (traced N) root subKey valueName value (st, [])).1) := by
  simp only [SetRegValueDWORD, withUTF16Ptr, deferClose, traced, ErrorTaxonomy]
  repeat' split
  all_goals simp only [*]
  all_goals simp [callsAfterFailure, Event.failure, Event.anyFailure, Event.err, Event.name,
    Event.mismatch, Event.isClose, returnedError, readError, NewWindowsError]

/-- The error taxonomy holds for `SetRegValueString`, whatever the native calls return. -/
theorem SetRegValueString_taxonomy {σ : Type} (N : Native σ) (root : Nat)
    (subKey valueName : List Nat) (data : List Nat) (st : σ) :
    ErrorTaxonomy Event.failure REG_SZ
      (SetRegValueString (traced N) root subKey valueName data (st, [])).2.2
      (returnedError (SetRegValueString (traced N) root subKey valueName data (st, [])).1) := by
  simp only [SetRegValueString, withUTF16Ptr, deferClose, traced, ErrorTaxonomy]
  repeat' split
  all_goals simp only [*]
  all_goals simp [callsAfterFailure, Event.failure, Event.anyFailure, Event.err, Event.name,
    Event.mismatch, Event.isClose, returnedError, readError, NewWindowsError]

/-- C7 (amended): for each of the five registry operations and whatever the native calls
return, the operation returns an error exactly when one of its open, create, query, set
or delete calls returned an error (the result of the handle close is dropped) or the type
query reported a type other than the requested one; every error it returns is the
wrapped code and name of the call that failed, or the unsupported-type error; and after
the first failing call only the handle close is made.  (The delete and the two writes
make no query, so the requested type given for them plays no role.) -/
theorem error_taxonomy {σ : Type} (N : Native σ) (root : Nat)
    (subKey valueName data : List Nat) (value : Nat) (st : σ) :
    ErrorTaxonomy Event.failure REG_DWORD
      (DeleteRegValue (traced N) root subKey valueName (st, [])).2.2
      (returnedError (DeleteRegValue (traced N) root subKey valueName (st, [])).1) ∧
    ErrorTaxonomy Event.failure REG_DWORD
      (GetRegValueDWORD (traced N) root subKey valueName (st, [])).2.2
      (readError (GetRegValueDWORD (traced N) root subKey valueName (st, [])).1) ∧
    ErrorTaxonomy Event.failure REG_SZ
      (GetRegValueString (traced N) root subKey valueName (st, [])).2.2
      (readError (GetRegValueString (traced N) root subKey valueName (st, [])).1) ∧
    ErrorTaxonomy Event.failure REG_DWORD
      (SetRegValueDWORD (traced N) root subKey valueName value (st, [])).2.2
      (returnedError (SetRegValueDWORD (traced N) root subKey valueName value (st, [])).1) ∧
    ErrorTaxonomy Event.failure REG_SZ
      (SetRegValueString (traced N) root subKey valueName data (st, [])).2.2
      (returnedError (SetRegValueString (traced N) root subKey valueName data (st, [])).1) :=
  ⟨DeleteRegValue_taxonomy N root subKey valueName st,
   GetRegValueDWORD_taxonomy N root subKey valueName st,
   GetRegValueString_taxonomy N root subKey valueName st,
   SetRegValueDWORD_taxonomy N root subKey valueName value st,
   SetRegValueString_taxonomy N root subKey valueName data st⟩

end Gowin32
